import Mathlib

/-!
Verification of the BigSkyAg automation suite's storage-provider abstraction and
backup-rotation/upload pipeline.  Every definition below is a shallow embedding of a
function from the repository's Python sources (`05_Automation/Scripts/...`); machine
behaviour of the filesystem and of remote backends is made explicit as function-valued
parameters.  File names never repeat inside one directory, so directory listings are
modelled as lists of records whose name components are assumed (where needed) to be
`Nodup`.
-/

namespace BigSky

/-! ## Python string primitives

Models of the Python `str` operations used by the scripts.  Python strings are modelled
as Lean `String` (a wrapper around `List Char`); `startswith`, `endswith`, `in` and
`lower` are modelled directly on the character lists. -/

/-- Model of Python `str.startswith`. -/
def pyStartsWith (s pre : String) : Bool :=
  pre.data.isPrefixOf s.data

/-- Model of Python `str.endswith`. -/
def pyEndsWith (s suf : String) : Bool :=
  suf.data.isSuffixOf s.data

/-- Model of Python `needle in hay` on strings (substring containment). -/
def pyContains (hay needle : String) : Bool :=
  (List.range (hay.data.length + 1)).any (fun i => needle.data.isPrefixOf (hay.data.drop i))

/-- Model of Python `str.lower` (ASCII case folding, as used on extensions here). -/
def pyLower (s : String) : String :=
  String.mk (s.data.map Char.toLower)

/-- Boolean membership of a string in a list of strings (Python `in` on a list,
`Path.exists` against a directory listing, dict-key tests and the like). -/
def memb (s : String) (l : List String) : Bool :=
  decide (s ∈ l)

/-- Model of `pathlib.Path.suffix`: the extension of the final path component,
including the dot; empty when the name has no dot in an admissible position
(`name[i:]` for the last `.` at index `i` with `0 < i < len(name) - 1`). -/
def pySuffix (name : String) : String :=
  let cs := name.data
  match (List.range cs.length).filter (fun i => cs.get? i = some '.') |>.getLast? with
  | none => ""
  | some i => if 0 < i ∧ i < cs.length - 1 then String.mk (cs.drop i) else ""

/-- Model of `pathlib.Path.stem`: the final path component without its suffix. -/
def pyStem (name : String) : String :=
  let cs := name.data
  match (List.range cs.length).filter (fun i => cs.get? i = some '.') |>.getLast? with
  | none => name
  | some i => if 0 < i ∧ i < cs.length - 1 then String.mk (cs.take i) else name

/-- Decimal representation of a natural number, as produced by Python string
formatting (`f"{n}"`) and by Lean's `toString`: the base-10 digits, most significant
first. -/
def natToDec (n : Nat) : String :=
  if n = 0 then "0" else String.mk (((Nat.digits 10 n).map Nat.digitChar).reverse)

end BigSky

namespace Rotation

/-! ## `cleanup_old_backups.py` — two-tier local rotation

`cleanup_old_backups` globs `{backup_prefix}_*.zip` in the backup folder, sorts by
modification time newest-first, moves everything beyond the working-keep count into
`Backups/Archive` (skipping a move whose target name already exists there), then
prunes the archive folder (same glob) down to the archive-keep count, deleting oldest
first.  Local files are records of name and modification time; `rename` preserves the
modification time. -/

open BigSky

/-- A file on local disk: name within its directory and filesystem modification time. -/
structure BFile where
  name : String
  mtime : Nat
deriving DecidableEq, Repr

/-- The glob pattern `{backup_prefix}_*.zip` of `cleanup_old_backups.py`, as a predicate. -/
def matchesPattern (pfx : String) (name : String) : Bool :=
  pyStartsWith name (pfx ++ "_") && pyEndsWith name ".zip"

/-- Python `sorted(files, key=lambda f: f.stat().st_mtime, reverse=True)`:
a stable sort, newest first. -/
def sortByMtimeDesc (l : List BFile) : List BFile :=
  List.insertionSort (fun a b => b.mtime ≤ a.mtime) l

/-- The move loop: for each file to archive (in order), skip it when a file of the same
name is already in the archive folder, otherwise rename it into the archive folder.
Returns the archive folder contents and the names actually moved. -/
def moveAll (archive : List BFile) : List BFile → List BFile × List String
  | [] => (archive, [])
  | f :: rest =>
    if memb f.name (archive.map (·.name)) then
      moveAll archive rest
    else
      let r := moveAll (archive ++ [f]) rest
      (r.1, f.name :: r.2)

/-- Result of one rotation run: final working-folder contents, final archive-folder
contents, and the names deleted from the archive. -/
structure RotationResult where
  working : List BFile
  archive : List BFile
  deleted : List String
deriving DecidableEq, Repr

/-- Shallow embedding of `cleanup_old_backups` (`cleanup_old_backups.py`, lines 28-78):
glob the working folder for `{pfx}_*.zip`, keep the newest `workingKeep` there, move the
rest into the archive folder unless the target name exists, then delete every archive
bundle beyond the newest `archiveKeep`. -/
def cleanup_old_backups (pfx : String) (workingKeep archiveKeep : Nat)
    (working archive : List BFile) : RotationResult :=
  let zips := sortByMtimeDesc (working.filter (fun f => matchesPattern pfx f.name))
  let toArchive := zips.drop workingKeep
  let moved := moveAll archive toArchive
  let working1 := working.filter (fun f => !(memb f.name moved.2))
  let archives := sortByMtimeDesc (moved.1.filter (fun f => matchesPattern pfx f.name))
  let deleted := (archives.drop archiveKeep).map (·.name)
  let archive2 := moved.1.filter (fun f => !(memb f.name deleted))
  ⟨working1, archive2, deleted⟩

/-- Count of bundle files (files matching the backup glob) in a directory listing. -/
def bundleCount (pfx : String) (l : List BFile) : Nat :=
  (l.filter (fun f => matchesPattern pfx f.name)).length

end Rotation

namespace BaseProvider

/-! ## `storage_providers/base_provider.py`

The abstract `StorageProvider`.  Its constructor runs `_validate_config()` and then
`_initialize_provider()`; all backend traffic happens inside initialization,
authentication and the file primitives.  `cleanup_old_backups` prunes a remote tier
folder best-effort: a `delete_file` returning `False` is logged and skipped, while an
exception raised by `delete_file` escapes the loop to the outer handler, which returns
`False`. -/

open BigSky

/-- A remote file record as returned by `list_files` (`id`, `name`, `size`,
`modified_time`, `url`, `type`). -/
structure RFile where
  id : String
  name : String
  size : Nat
  modified_time : Nat
  url : String
  rtype : String
deriving DecidableEq, Repr

instance : IsTotal RFile (fun a b => b.modified_time ≤ a.modified_time) :=
  ⟨fun a b => Nat.le_total b.modified_time a.modified_time⟩

instance : IsTrans RFile (fun a b => b.modified_time ≤ a.modified_time) :=
  ⟨fun _ _ _ h1 h2 => le_trans h2 h1⟩

/-- Python `sorted(files, key=lambda x: x.get('modified_time', 0), reverse=True)`. -/
def sortRFilesDesc (l : List RFile) : List RFile :=
  List.insertionSort (fun a b => b.modified_time ≤ a.modified_time) l

/-- Outcome of a `delete_file` call: `Except.error` models a raised exception,
`Except.ok b` models a normal return of `b`. -/
abbrev DeleteResult := Except String Bool

/-- The deletion loop of `cleanup_old_backups`: attempts each file in order; a raised
exception aborts the loop (it propagates to the outer handler), a `False` return is
logged and skipped.  Returns the success flag and the ids on which `delete_file` was
invoked. -/
def deleteLoop (deleteFile : String → DeleteResult) : List RFile → List String → Bool × List String
  | [], acc => (true, acc)
  | f :: rest, acc =>
    match deleteFile f.id with
    | .error _ => (false, acc ++ [f.id])
    | .ok _ => deleteLoop deleteFile rest (acc ++ [f.id])

/-- Shallow embedding of `StorageProvider.cleanup_old_backups` (lines 65-78): list the
tier folder, return `True` immediately when at most `maxBackups` files are present,
otherwise sort newest-first and delete everything beyond the first `maxBackups`.
Returns the overall flag and the list of ids on which deletion was attempted. -/
def cleanup_old_backups (files : List RFile) (deleteFile : String → DeleteResult)
    (maxBackups : Nat) : Bool × List String :=
  if files.length ≤ maxBackups then (true, [])
  else deleteLoop deleteFile ((sortRFilesDesc files).drop maxBackups) []

end BaseProvider

namespace Providers

/-! ## `storage_providers/{local,dropbox,s3,google_drive}.py` — `list_files`

Each backend is modelled as a record of functions describing its observable behaviour;
`list_files` is embedded per variant.  `Except.error` models a raised exception. -/

open BigSky BaseProvider

/-- A directory entry on the local-disk backend. -/
structure LItem where
  name : String
  isFile : Bool
  size : Nat
  mtime : Nat
deriving DecidableEq, Repr

/-- The local filesystem under the provider's storage root: which paths exist and the
entries `iterdir` yields for a directory path. -/
structure LocalFS where
  pathExists : String → Bool
  entries : String → List LItem

/-- Path join `a / b` of `pathlib`. -/
def joinPath (a b : String) : String := a ++ "/" ++ b

/-- Shallow embedding of `LocalStorageProvider.list_files` (local.py, lines 101-129):
resolve the search path, return `[]` when it does not exist, otherwise list the regular
files one level deep, with path-relative ids. -/
def local_list_files (fs : LocalFS) (root folder : String) : Except String (List RFile) :=
  let searchPath := if folder = "" then root else joinPath root folder
  if fs.pathExists searchPath = false then .ok []
  else .ok ((fs.entries searchPath).filter (·.isFile) |>.map (fun it =>
    { id := if folder = "" then it.name else joinPath folder it.name
      name := it.name
      size := it.size
      modified_time := it.mtime
      url := joinPath searchPath it.name
      rtype := "file" }))

/-- An entry returned by the Dropbox `files_list_folder` call; `hasId` models the
Python `hasattr(entry, 'id')` test. -/
structure DBEntry where
  id : String
  name : String
  size : Nat
  server_modified : Nat
  path_display : String
  hasId : Bool
deriving DecidableEq, Repr

/-- The observable Dropbox API surface used by `list_files`. -/
structure DropboxAPI where
  filesListFolder : String → Except String (List DBEntry)
  sharingCreateSharedLink : String → Except String String

/-- `DropboxProvider._get_shared_link`: swallow any error and return `""`. -/
def dropbox_get_shared_link (api : DropboxAPI) (path : String) : String :=
  match api.sharingCreateSharedLink path with
  | .ok u => u
  | .error _ => ""

/-- Shallow embedding of `DropboxProvider.list_files` (dropbox.py, lines 102-132): call
`files_list_folder` on `"/" ++ folder` (or `""` for the root); an exception whose
lowered text contains `"not_found"` yields `[]`, any other exception is re-raised
wrapped; entries with an `id` attribute become records. -/
def dropbox_list_files (api : DropboxAPI) (folder : String) : Except String (List RFile) :=
  let dropboxPath := if folder = "" then "" else "/" ++ folder
  match api.filesListFolder dropboxPath with
  | .error e =>
    if pyContains (pyLower e) "not_found" then .ok []
    else .error ("Dropbox list files failed: " ++ e)
  | .ok entries =>
    .ok (entries.filterMap (fun en =>
      if en.hasId then
        some { id := en.id, name := en.name, size := en.size,
               modified_time := en.server_modified,
               url := dropbox_get_shared_link api en.path_display, rtype := "file" }
      else none))

/-- An object in an S3 `list_objects_v2` response. -/
structure S3Obj where
  key : String
  size : Nat
  lastModified : Nat
deriving DecidableEq, Repr

/-- An S3 `list_objects_v2` response: `contents = none` models the absence of the
`'Contents'` key (the empty listing of a nonexistent prefix). -/
structure S3Resp where
  contents : Option (List S3Obj)
deriving DecidableEq, Repr

/-- The observable S3 client surface used by `list_files`: bucket, prefix, delimiter. -/
structure S3API where
  listObjectsV2 : String → String → String → Except String S3Resp

/-- The final path component (`pathlib.Path(key).name`). -/
def pyBasename (s : String) : String :=
  ((s.splitOn "/").reverse).headD s

/-- Shallow embedding of `S3Provider.list_files` (s3.py, lines 118-148): list one
"directory" level with prefix `folder ++ "/"` and delimiter `/`; a response without
`Contents` yields no files; keys with a trailing slash (folder markers) are skipped. -/
def s3_list_files (api : S3API) (bucket region folder : String) :
    Except String (List RFile) :=
  let pre := if folder = "" then "" else folder ++ "/"
  match api.listObjectsV2 bucket pre "/" with
  | .error e => .error ("S3 list files failed: " ++ e)
  | .ok resp =>
    .ok (match resp.contents with
      | none => []
      | some objs => objs.filterMap (fun o =>
          if pyEndsWith o.key "/" then none
          else some { id := o.key, name := pyBasename o.key, size := o.size,
                      modified_time := o.lastModified,
                      url := "https://" ++ bucket ++ ".s3." ++ region ++ ".amazonaws.com/" ++ o.key,
                      rtype := "file" }))

/-- A file record in a Google Drive `files().list` response. -/
structure GFile where
  id : String
  name : String
  size : Nat
  modifiedTime : String
  webViewLink : String
deriving DecidableEq, Repr

/-- The observable Google Drive service surface used by `list_files`: each query string
either raises or returns the matching file records. -/
structure GDriveAPI where
  filesList : String → Except String (List GFile)

/-- The query `_get_folder_id` issues for a folder name under a parent id. -/
def gdriveFolderQuery (folderName parentId : String) : String :=
  "name='" ++ folderName ++ "' and '" ++ parentId ++
    "' in parents and trashed=false and mimeType='application/vnd.google-apps.folder'"

/-- The query `list_files` issues for the children of a folder id. -/
def gdriveChildrenQuery (folderId : String) : String :=
  "'" ++ folderId ++ "' in parents and trashed=false"

/-- Shallow embedding of `GoogleDriveProvider._get_folder_id` (google_drive.py, lines
205-222): run the folder query; any exception yields `None`; otherwise the first
match's id, or `None` when there is no match. -/
def gdrive_get_folder_id (api : GDriveAPI) (rootId folderName : String)
    (parentId : Option String) : Option String :=
  let pid := parentId.getD rootId
  match api.filesList (gdriveFolderQuery folderName pid) with
  | .error _ => none
  | .ok files => files.head?.map (·.id)

/-- Python truthiness of the optional folder id (`if not folder_id`). -/
def truthyId (o : Option String) : Bool :=
  match o with
  | none => false
  | some s => decide (s ≠ "")

/-- Shallow embedding of `GoogleDriveProvider.list_files` (google_drive.py, lines
124-154): resolve the folder id (the configured root for `""`), return `[]` when it is
falsy, otherwise query the folder's children. -/
def gdrive_list_files (api : GDriveAPI) (rootId folder : String) :
    Except String (List RFile) :=
  let folderId := if folder = "" then some rootId else gdrive_get_folder_id api rootId folder none
  if truthyId folderId = false then .ok []
  else
    match api.filesList (gdriveChildrenQuery (folderId.getD "")) with
    | .error e => .error ("Google Drive list files failed: " ++ e)
    | .ok files =>
      .ok (files.map (fun f =>
        { id := f.id, name := f.name, size := f.size, modified_time := 0,
          url := f.webViewLink, rtype := "file" }))

/-! ### Provider construction order (`base_provider.py` + `google_drive.py`) -/

/-- Association-list lookup modelling `key in config` / `config['key']`. -/
def lookupKey (cfg : List (String × String)) (k : String) : Option String :=
  List.lookup k cfg

/-- Shallow embedding of `GoogleDriveProvider._validate_config` (google_drive.py, lines
15-33): require the `credentials_path` and `token_path` keys, then require both
referenced local files to exist.  Pure dictionary and filesystem checks — no network. -/
def gdrive_validate_config (cfg : List (String × String)) (fileExists : String → Bool) :
    Except String Unit :=
  if (lookupKey cfg "credentials_path").isNone then
    .error "Missing required config key: credentials_path"
  else if (lookupKey cfg "token_path").isNone then
    .error "Missing required config key: token_path"
  else
    let creds := (lookupKey cfg "credentials_path").getD ""
    let tok := (lookupKey cfg "token_path").getD ""
    if fileExists creds = false then .error ("Credentials file not found: " ++ creds)
    else if fileExists tok = false then .error ("Token file not found: " ++ tok)
    else .ok ()

/-- Python truthiness of an optional environment value (`os.environ.get(key)`):
absent or empty is falsy. -/
def truthyEnv (o : Option String) : Bool :=
  match o with
  | none => false
  | some s => decide (s ≠ "")

/-- Shallow embedding of `LocalStorageProvider._validate_config` (local.py, lines
16-29): require the `storage_path` key; the referenced directory is then created if
missing — a filesystem effect, not a failure path. -/
def local_validate_config (cfg : List (String × String)) : Except String Unit :=
  if (lookupKey cfg "storage_path").isNone then
    .error "Missing required config key: storage_path"
  else .ok ()

/-- Shallow embedding of `DropboxProvider._validate_config` (dropbox.py, lines
15-23): require the `access_token` key. -/
def dropbox_validate_config (cfg : List (String × String)) : Except String Unit :=
  if (lookupKey cfg "access_token").isNone then
    .error "Missing required config key: access_token"
  else .ok ()

/-- Shallow embedding of `S3Provider._has_credentials` (s3.py, lines 59-65): both AWS
environment variables must be present and non-empty. -/
def s3_has_credentials (env : String → Option String) : Bool :=
  truthyEnv (env "AWS_ACCESS_KEY_ID") && truthyEnv (env "AWS_SECRET_ACCESS_KEY")

/-- Shallow embedding of `S3Provider._validate_config` (s3.py, lines 14-26): require
the `bucket_name` and `region_name` keys, then the AWS credential environment
variables.  Pure dictionary and environment checks — no network. -/
def s3_validate_config (cfg : List (String × String)) (env : String → Option String) :
    Except String Unit :=
  if (lookupKey cfg "bucket_name").isNone then
    .error "Missing required config key: bucket_name"
  else if (lookupKey cfg "region_name").isNone then
    .error "Missing required config key: region_name"
  else if s3_has_credentials env = false then
    .error "AWS credentials not found. Set AWS_ACCESS_KEY_ID and AWS_SECRET_ACCESS_KEY environment variables"
  else .ok ()

/-- Backend-visible events a provider can cause after construction starts: the
initialization round-trip, an authentication probe, or any other network call. -/
inductive ProviderEvent where
  | initRoundTrip
  | authProbe
  | netCall (desc : String)
deriving DecidableEq, Repr

/-- Shallow embedding of `StorageProvider.__init__` (base_provider.py, lines 16-23):
run `_validate_config()`, and only when it succeeds run `_initialize_provider()`
(whose backend round-trips are `initEvents`).  A validation exception propagates out of
the constructor before any backend work. -/
def provider_construct (validateResult : Except String Unit)
    (initResult : Except String Unit) (initEvents : List ProviderEvent) :
    Except String Unit × List ProviderEvent :=
  match validateResult with
  | .error e => (.error e, [])
  | .ok _ => (initResult, initEvents)

end Providers

namespace Chunked

/-! ## `upload_backup_chunked.py` — resumable chunked upload

`ChunkedUploader` splits the bundle into `CHUNK_SIZE`-byte chunks numbered from 0,
skips chunks recorded in the persisted `.upload_state` file (when its recorded path and
size match the file), uploads the rest in order with per-chunk retries, rewrites the
state file after each success, and deletes it after the loop completes.  The success of
each upload attempt is an oracle `succ chunk attempt`. -/

/-- `CHUNK_SIZE = 50 * 1024 * 1024` (50 MB). -/
def CHUNK_SIZE : Nat := 50 * 1024 * 1024

/-- `MAX_RETRIES = 3`. -/
def MAX_RETRIES : Nat := 3

/-- The persisted upload-state record (`save_upload_state`): file path, file size and
the chunk numbers already uploaded. -/
structure UploadState where
  file_path : String
  file_size : Nat
  uploaded_chunks : List Nat
deriving DecidableEq, Repr

/-- Number of chunks `calculate_chunks` produces for a file of `size` bytes
(`read(CHUNK_SIZE)` until empty): `⌈size / CHUNK_SIZE⌉`. -/
def numChunks (size : Nat) : Nat :=
  (size + CHUNK_SIZE - 1) / CHUNK_SIZE

/-- Shallow embedding of `ChunkedUploader.load_upload_state` (lines 87-109): the
recorded chunk list is adopted only when the recorded path and size match the target
file; otherwise the upload starts fresh. -/
def load_upload_state (stored : Option UploadState) (path : String) (size : Nat) :
    List Nat :=
  match stored with
  | none => []
  | some st =>
    if st.file_path = path ∧ st.file_size = size then st.uploaded_chunks else []

/-- Shallow embedding of `ChunkedUploader.upload_chunk` (lines 111-143): up to
`MAX_RETRIES` attempts; succeeds as soon as one attempt returns a truthy chunk id. -/
def upload_chunk (succ : Nat → Nat → Bool) (chunk : Nat) : Bool :=
  (List.range MAX_RETRIES).any (fun attempt => succ chunk attempt)

/-- Observable outcome of an `upload_file` run: the returned flag, the chunk numbers
uploaded during this run (in order), the state file left on disk afterwards (`none` =
deleted/absent), and the successive state records written by `save_upload_state`. -/
structure UploadOutcome where
  success : Bool
  uploadedNow : List Nat
  finalState : Option UploadState
  saves : List UploadState
deriving DecidableEq, Repr

/-- The chunk loop of `ChunkedUploader.upload_file`: process chunk numbers in order,
skipping those already in `uploaded`; a chunk that fails all retries aborts the run,
leaving the current state file in place; each success appends the chunk number and
rewrites the state file; after the loop, the state file is deleted. -/
def uploadLoop (succ : Nat → Nat → Bool) (path : String) (size : Nat) :
    List Nat → List Nat → Option UploadState → UploadOutcome
  | [], _, _ => ⟨true, [], none, []⟩
  | c :: rest, uploaded, stateFile =>
    if c ∈ uploaded then uploadLoop succ path size rest uploaded stateFile
    else if upload_chunk succ c then
      let newState : UploadState := ⟨path, size, uploaded ++ [c]⟩
      let r := uploadLoop succ path size rest (uploaded ++ [c]) (some newState)
      ⟨r.success, c :: r.uploadedNow, r.finalState, newState :: r.saves⟩
    else ⟨false, [], stateFile, []⟩

/-- Shallow embedding of `ChunkedUploader.upload_file` (lines 145-177): load any
matching persisted state, compute the chunk list, run the upload loop, and (inside the
loop model) delete the state file once every chunk is done. -/
def upload_file (stored : Option UploadState) (path : String) (size : Nat)
    (succ : Nat → Nat → Bool) : UploadOutcome :=
  uploadLoop succ path size (List.range (numChunks size)) (load_upload_state stored path size)
    stored

/-- The chunk numbers a run must upload: those of the chunk list not in the recorded
uploaded set. -/
def newChunks (chunks uploaded : List Nat) : List Nat :=
  chunks.filter (fun c => !(decide (c ∈ uploaded)))

/-- The successive uploaded-chunk lists recorded by `save_upload_state` when the new
chunks `l` are appended one at a time to the recorded list `base`. -/
def prefixesFrom (base : List Nat) : List Nat → List (List Nat)
  | [] => []
  | c :: rest => (base ++ [c]) :: prefixesFrom (base ++ [c]) rest

end Chunked

namespace UploadScript

/-! ## `upload_backup.py` / `upload_backup_chunked.py` — `find_latest_backup`

Both scripts glob `*.zip` in the backup directory, take the file with the greatest
modification time (Python `max` keeps the first maximal element), and fail when the
directory is missing, when no `.zip` file exists, or when the chosen file is empty. -/

open BigSky

/-- A candidate backup file: name, modification time, size. -/
structure ZFile where
  name : String
  mtime : Nat
  size : Nat
deriving DecidableEq, Repr

/-- Python `max(files, key=lambda x: x.stat().st_mtime)` over a nonempty list: the
first element of maximal modification time. -/
def maxByMtime (f : ZFile) (rest : List ZFile) : ZFile :=
  rest.foldl (fun best c => if best.mtime < c.mtime then c else best) f

/-- Shallow embedding of `find_latest_backup` (upload_backup.py lines 56-87 and
upload_backup_chunked.py lines 179-209): `None` when the directory is missing, when
`glob("*.zip")` finds nothing, or when the newest `.zip` file has size 0. -/
def find_latest_backup (dirExists : Bool) (files : List ZFile) : Option ZFile :=
  if dirExists = false then none
  else
    match files.filter (fun f => pyEndsWith f.name ".zip") with
    | [] => none
    | f :: rest =>
      let latest := maxByMtime f rest
      if latest.size = 0 then none else some latest

end UploadScript

namespace Router

/-! ## `router.py` — drop-zone routing

`FileRouter.route_files` filters the drop-zone entries (regular files only, no hidden
or OS metadata names), then per file: validates it, resolves the destination folder by
extension (unknown extensions go to the archive folder), detects a content duplicate
among same-extension files already at the destination (deleting the source and counting
a handled duplicate), otherwise moves it, renaming to `{stem}_{n}{ext}` with the first
free `n ≥ 1` on a name collision.  File contents are byte lists; the content hash (MD5
hexdigest in the source) is a parameter `hashFn`. -/

open BigSky

/-- A drop-zone entry: name, byte content, and the filesystem facts the validator
checks (`exists()`, `is_file()`, readability).  Size is the content length. -/
structure DZFile where
  name : String
  content : List Nat
  onDisk : Bool
  isFile : Bool
  readable : Bool
deriving DecidableEq, Repr

/-- An entry of a destination folder (`glob("*")` result). -/
structure DestFile where
  name : String
  content : List Nat
  isFile : Bool
deriving DecidableEq, Repr

/-- Shallow embedding of `FileRouter.validate_file_for_routing` (router.py, lines
115-135). -/
def validate_file_for_routing (f : DZFile) : Bool × String :=
  if f.onDisk = false then (false, "File does not exist")
  else if f.isFile = false then (false, "Not a regular file")
  else if f.content.length = 0 then (false, "File is empty")
  else if f.readable = false then (false, "File is not readable")
  else (true, "File is valid")

/-- Shallow embedding of `FileRouter.find_duplicate_by_content` (router.py, lines
83-100): no search when the folder is absent or the source hash is empty (a hash
failure); otherwise the first regular file with the same lowered extension and equal
content hash. -/
def find_duplicate_by_content (hashFn : List Nat → String) (f : DZFile)
    (destExists : Bool) (dest : List DestFile) : Option DestFile :=
  if destExists = false then none
  else
    let sourceHash := hashFn f.content
    if sourceHash = "" then none
    else dest.find? (fun g => g.isFile &&
      decide (pyLower (pySuffix g.name) = pyLower (pySuffix f.name)) &&
      decide (hashFn g.content = sourceHash))

/-- The candidate name `f"{stem}_{counter}{extension}"`. -/
def mkIndexedName (stem ext : String) (n : Nat) : String :=
  stem ++ "_" ++ natToDec n ++ ext

/-- The `while True` loop of `generate_unique_filename`, made total with a fuel
argument: try counters `c, c+1, ...` until a candidate name is absent from the
destination listing. -/
def genLoop (stem ext : String) (existingNames : List String) : Nat → Nat → Option String
  | _, 0 => none
  | c, fuel + 1 =>
    if memb (mkIndexedName stem ext c) existingNames then
      genLoop stem ext existingNames (c + 1) fuel
    else some (mkIndexedName stem ext c)

/-- Shallow embedding of `FileRouter.generate_unique_filename` (router.py, lines
102-113), starting at counter 1.  Fuel `existingNames.length + 1` always suffices
(`genLoop_total` below), so the `.getD` fallback is never taken. -/
def generate_unique_filename (name : String) (existingNames : List String) : String :=
  (genLoop (pyStem name) (pySuffix name) existingNames 1 (existingNames.length + 1)).getD name

/-- Observable outcome of `route_single_file` on one file against its resolved
destination folder. -/
structure RouteOutcome where
  destAfter : List DestFile
  sourceRemoved : Bool
  succeeded : Bool
  routedDelta : Nat
  dupDelta : Nat
  warnAdded : List (String × String)
  errAdded : List String
  movedTo : Option String
  hashedSrc : Bool
deriving DecidableEq, Repr

/-- Shallow embedding of `FileRouter.route_single_file` (router.py, lines 137-207)
relative to the resolved destination folder `dest` (which the code has just created, so
the duplicate search sees it as existing).  An invalid file is skipped with a warning;
a content duplicate is deleted from the drop zone; otherwise the file is moved, to a
generated unique name when its own name is already present. -/
def route_single_file (hashFn : List Nat → String) (f : DZFile) (dest : List DestFile) :
    RouteOutcome :=
  let v := validate_file_for_routing f
  if v.1 = false then ⟨dest, false, false, 0, 0, [(f.name, v.2)], [], none, false⟩
  else
    match find_duplicate_by_content hashFn f true dest with
    | some _ => ⟨dest, true, true, 0, 1, [], [], none, true⟩
    | none =>
      let destNames := dest.map (·.name)
      let destPath := if memb f.name destNames then generate_unique_filename f.name destNames
                      else f.name
      ⟨dest ++ [⟨destPath, f.content, true⟩], true, true, 1, 0, [], [], some destPath, true⟩

/-- The drop-zone entry filter of `route_files` (router.py, lines 236-243). -/
def routableEntry (e : DZFile) : Bool :=
  e.isFile && !(pyStartsWith e.name ".") && !(pyStartsWith e.name "._") &&
    decide (e.name ≠ ".DS_Store") && decide (e.name ≠ "Thumbs.db")

/-- The `ROUTING_RULES` table of `config.py`: extension (lower-case, with dot) to
destination folder key. -/
def ROUTING_RULES : List (String × String) :=
  [(".pdf", "admin"), (".docx", "admin"), (".doc", "admin"), (".xlsx", "admin"),
   (".xls", "admin"), (".csv", "admin"), (".txt", "admin"), (".rtf", "admin"),
   (".odt", "admin"), (".ods", "admin"),
   (".png", "branding"), (".jpg", "branding"), (".jpeg", "branding"), (".gif", "branding"),
   (".bmp", "branding"), (".tiff", "branding"), (".svg", "branding"), (".ai", "branding"),
   (".psd", "branding"), (".eps", "branding"),
   (".tif", "field_projects"), (".shp", "field_projects"), (".dbf", "field_projects"),
   (".prj", "field_projects"), (".shx", "field_projects"), (".cpg", "field_projects"),
   (".geojson", "field_projects"), (".kml", "field_projects"), (".kmz", "field_projects"),
   (".las", "field_projects"), (".laz", "field_projects"), (".dem", "field_projects"),
   (".asc", "field_projects"), (".img", "field_projects"), (".ecw", "field_projects"),
   (".sid", "field_projects"),
   (".gpkg", "mapping"), (".qgz", "mapping"), (".qgs", "mapping"), (".qgd", "mapping"),
   (".sqlite", "mapping"), (".db", "mapping"),
   (".mp4", "training"), (".avi", "training"), (".mov", "training"), (".wmv", "training"),
   (".flv", "training"), (".webm", "training"), (".mp3", "training"), (".wav", "training"),
   (".aac", "training"), (".flac", "training"),
   (".py", "scripts"), (".sh", "scripts"), (".command", "scripts"), (".bat", "scripts"),
   (".ps1", "scripts"), (".js", "scripts"), (".html", "scripts"), (".css", "scripts"),
   (".json", "scripts"), (".xml", "scripts"), (".yaml", "scripts"), (".yml", "scripts"),
   (".zip", "backups"), (".tar", "backups"), (".gz", "backups"), (".7z", "backups"),
   (".rar", "backups"), (".iso", "backups"),
   (".pptx", "business"), (".ppt", "business"), (".key", "business"), (".odp", "business"),
   (".md", "business"), (".markdown", "business")]

/-- `config.get_routing_destination` at the folder-key level. -/
def get_routing_destination (ext : String) : Option String :=
  List.lookup (pyLower ext) ROUTING_RULES

/-- The folder key a file is routed to: its lowered extension looked up in the routing
table, falling back to the archive folder (router.py, lines 147-154). -/
def destKeyOf (name : String) : String :=
  (get_routing_destination (pyLower (pySuffix name))).getD "archive"

/-- The destination folders, keyed by folder key. -/
abbrev DestMap := List (String × List DestFile)

def getFolder (m : DestMap) (k : String) : List DestFile :=
  (List.lookup k m).getD []

def setFolder (m : DestMap) (k : String) (v : List DestFile) : DestMap :=
  (k, v) :: m.filter (fun p => !(decide (p.1 = k)))

/-- Router state accumulated across the per-file loop of `route_files`. -/
structure RFState where
  dests : DestMap
  removed : List String
  routed : Nat
  dups : Nat
  warnings : List (String × String)
  errors : List String
  failed : List String
  hashed : List String

/-- One iteration of the `route_files` loop: route the file against its resolved
destination folder and fold its outcome into the router state.  `hashed` records the
names whose content the duplicate search hashed. -/
def processOne (hashFn : List Nat → String) (st : RFState) (f : DZFile) : RFState :=
  let key := destKeyOf f.name
  let o := route_single_file hashFn f (getFolder st.dests key)
  { dests := setFolder st.dests key o.destAfter
    removed := st.removed ++ (if o.sourceRemoved then [f.name] else [])
    routed := st.routed + o.routedDelta
    dups := st.dups + o.dupDelta
    warnings := st.warnings ++ o.warnAdded
    errors := st.errors ++ o.errAdded
    failed := st.failed ++ (if o.succeeded then [] else [f.name])
    hashed := st.hashed ++ (if o.hashedSrc then [f.name] else []) }

/-- Observable result of a `route_files` run. -/
structure RFResult where
  dz : List DZFile
  dests : DestMap
  success : Bool
  routed : Nat
  dups : Nat
  warnings : List (String × String)
  errors : List String
  failed : List String
  hashed : List String

/-- Shallow embedding of `FileRouter.route_files` (router.py, lines 209-269): filter
the drop-zone entries, return success immediately when none remain, otherwise process
each in order; entries whose source file was removed (moved or deleted as a duplicate)
leave the drop zone; overall success is `len(errors) == 0`. -/
def route_files (hashFn : List Nat → String) (entries : List DZFile) (dests0 : DestMap) :
    RFResult :=
  let files := entries.filter routableEntry
  if files.isEmpty then ⟨entries, dests0, true, 0, 0, [], [], [], []⟩
  else
    let st := files.foldl (processOne hashFn) ⟨dests0, [], 0, 0, [], [], [], []⟩
    ⟨entries.filter (fun e => !(routableEntry e && memb e.name st.removed)), st.dests,
      st.errors.isEmpty, st.routed, st.dups, st.warnings, st.errors, st.failed, st.hashed⟩

end Router

/-! ## Theorems -/

namespace BigSky

theorem memb_iff {s : String} {l : List String} : memb s l = true ↔ s ∈ l := by
  simp [memb]

theorem bnot_eq_true_of_ne {b : Bool} (h : ¬ b = true) : (!b) = true := by
  cases b
  · rfl
  · exact absurd rfl h

theorem digitChar_inj_lt : ∀ a : Nat, a < 10 → ∀ b : Nat, b < 10 →
    Nat.digitChar a = Nat.digitChar b → a = b := by decide

theorem map_digitChar_inj : ∀ l₁ l₂ : List Nat, (∀ d ∈ l₁, d < 10) → (∀ d ∈ l₂, d < 10) →
    l₁.map Nat.digitChar = l₂.map Nat.digitChar → l₁ = l₂ := by
  intro l₁
  induction l₁ with
  | nil => intro l₂ _ _ h; cases l₂ <;> simp_all
  | cons a t ih =>
    intro l₂ h₁ h₂ h
    cases l₂ with
    | nil => simp_all
    | cons b t₂ =>
      simp only [List.map_cons, List.cons.injEq] at h
      have ha : a = b := digitChar_inj_lt a (h₁ a (by simp)) b (h₂ b (by simp)) h.1
      have ht : t = t₂ := ih t₂ (fun d hd => h₁ d (by simp [hd])) (fun d hd => h₂ d (by simp [hd])) h.2
      simp [ha, ht]

theorem natToDec_pos (n : Nat) (hn : n ≠ 0) :
    natToDec n = String.mk (((Nat.digits 10 n).map Nat.digitChar).reverse) := by
  unfold natToDec
  rw [if_neg hn]

theorem natToDec_ne_zero_str (n : Nat) (hn : n ≠ 0) : natToDec n ≠ "0" := by
  intro h
  rw [natToDec_pos n hn] at h
  have hd := congrArg String.data h
  have h1 : (Nat.digits 10 n).map Nat.digitChar = ['0'] := by
    have := congrArg List.reverse hd
    simpa using this
  have h2 : (Nat.digits 10 n).map Nat.digitChar = ([0] : List Nat).map Nat.digitChar := by
    simpa using h1
  have h3 : Nat.digits 10 n = [0] :=
    map_digitChar_inj _ _ (fun d hd => Nat.digits_lt_base (by norm_num) hd) (by simp) h2
  have h4 : n = Nat.ofDigits 10 (Nat.digits 10 n) := (Nat.ofDigits_digits 10 n).symm
  rw [h3] at h4
  simp [Nat.ofDigits] at h4
  exact hn h4

theorem natToDec_injective : Function.Injective natToDec := by
  intro m n h
  by_cases hm : m = 0 <;> by_cases hn : n = 0
  · rw [hm, hn]
  · exfalso
    rw [hm] at h
    exact natToDec_ne_zero_str n hn h.symm
  · exfalso
    rw [hn] at h
    exact natToDec_ne_zero_str m hm h
  · rw [natToDec_pos m hm, natToDec_pos n hn] at h
    have hd := congrArg String.data h
    have h1 : (Nat.digits 10 m).map Nat.digitChar = (Nat.digits 10 n).map Nat.digitChar := by
      have := congrArg List.reverse hd
      simpa using this
    have h2 : Nat.digits 10 m = Nat.digits 10 n :=
      map_digitChar_inj _ _ (fun d hd => Nat.digits_lt_base (by norm_num) hd)
        (fun d hd => Nat.digits_lt_base (by norm_num) hd) h1
    exact Nat.digits.injective 10 h2

end BigSky

namespace Rotation

open BigSky

theorem moveAll_names_mono : ∀ (l archive : List BFile) (x : String),
    (x ∈ archive.map (·.name) ∨ x ∈ (moveAll archive l).2) →
    x ∈ (moveAll archive l).1.map (·.name) := by
  intro l
  induction l with
  | nil =>
    intro archive x hx
    rcases hx with hx | hx
    · simpa [moveAll] using hx
    · simp [moveAll] at hx
  | cons f rest ih =>
    intro archive x hx
    rw [moveAll] at hx ⊢
    by_cases hm : memb f.name (archive.map (·.name)) = true
    · rw [if_pos hm] at hx ⊢
      exact ih archive x hx
    · rw [if_neg hm] at hx ⊢
      dsimp only at hx ⊢
      refine ih (archive ++ [f]) x ?_
      rcases hx with hx | hx
      · left
        rw [List.map_append]
        exact List.mem_append_left _ hx
      · rcases List.mem_cons.mp hx with hx | hx
        · left
          rw [List.map_append, hx]
          refine List.mem_append_right _ ?_
          simp
        · right
          exact hx

theorem moveAll_full : ∀ (l archive : List BFile),
    (∀ f ∈ l, f.name ∉ archive.map (·.name)) → (l.map (·.name)).Nodup →
    moveAll archive l = (archive ++ l, l.map (·.name)) := by
  intro l
  induction l with
  | nil =>
    intro archive _ _
    simp [moveAll]
  | cons f rest ih =>
    intro archive hdisj hnd
    have hf : f.name ∉ archive.map (·.name) := hdisj f (by simp)
    have hm : ¬ memb f.name (archive.map (·.name)) = true := by
      intro hc
      exact hf (memb_iff.mp hc)
    rw [moveAll, if_neg hm]
    dsimp only
    have hnd' : (rest.map (·.name)).Nodup := by
      simp only [List.map_cons, List.nodup_cons] at hnd
      exact hnd.2
    have hfr : f.name ∉ rest.map (·.name) := by
      simp only [List.map_cons, List.nodup_cons] at hnd
      exact hnd.1
    have hdisj' : ∀ g ∈ rest, g.name ∉ (archive ++ [f]).map (·.name) := by
      intro g hg hmem2
      rw [List.map_append] at hmem2
      rcases List.mem_append.mp hmem2 with hga | hgf
      · exact hdisj g (List.mem_cons_of_mem f hg) hga
      · have hgf' : g.name = f.name := by simpa using hgf
        exact hfr (hgf' ▸ List.mem_map.mpr ⟨g, hg, rfl⟩)
    rw [ih (archive ++ [f]) hdisj' hnd']
    simp

theorem filter_not_memb_map_self (l : List BFile) :
    l.filter (fun f => !(memb f.name (l.map (·.name)))) = [] := by
  rw [List.filter_eq_nil_iff]
  intro f hf
  simp [memb_iff, List.mem_map_of_mem (·.name) hf]

theorem length_filter_take_le (p : BFile → Bool) (l : List BFile) (n : Nat) :
    ((l.take n).filter p).length ≤ n :=
  le_trans (List.length_filter_le p (l.take n)) (by rw [List.length_take]; exact min_le_left _ _)

/-- Core pruning bound: filtering a listing `l` down to the elements whose names are not
among the names of `srt.drop k` (for `srt` a permutation of `l.filter p`) leaves at most
`k` elements satisfying `p`. -/
theorem prune_bound (p : BFile → Bool) (k : Nat) (l srt : List BFile)
    (hperm : srt.Perm (l.filter p)) :
    ((l.filter (fun f => !(memb f.name ((srt.drop k).map (·.name))))).filter p).length ≤ k := by
  rw [List.filter_filter]
  have hcomm : l.filter (fun a => p a && !(memb a.name ((srt.drop k).map (·.name)))) =
      (l.filter p).filter (fun a => !(memb a.name ((srt.drop k).map (·.name)))) := by
    rw [List.filter_filter]
    apply List.filter_congr
    intro f _
    exact Bool.and_comm _ _
  rw [hcomm]
  have hlen : ((l.filter p).filter (fun a => !(memb a.name ((srt.drop k).map (·.name))))).length =
      (srt.filter (fun a => !(memb a.name ((srt.drop k).map (·.name))))).length :=
    ((hperm.filter _).length_eq).symm
  rw [hlen]
  have key : ((srt.take k ++ srt.drop k).filter
      (fun a => !(memb a.name ((srt.drop k).map (·.name))))).length ≤ (srt.take k).length := by
    rw [List.filter_append, List.length_append, filter_not_memb_map_self (srt.drop k)]
    simp only [List.length_nil, Nat.add_zero]
    exact List.length_filter_le _ _
  rw [List.take_append_drop k srt] at key
  exact le_trans key (by rw [List.length_take]; exact min_le_left _ _)

theorem mem_archive_or_deleted (pfx : String) (ak : Nat) (a1 : List BFile) (x : String)
    (hx : x ∈ a1.map (·.name)) :
    x ∈ (a1.filter (fun f => !(memb f.name
        (((sortByMtimeDesc (a1.filter (fun f => matchesPattern pfx f.name))).drop ak).map
          (·.name))))).map (·.name) ∨
    x ∈ ((sortByMtimeDesc (a1.filter (fun f => matchesPattern pfx f.name))).drop ak).map
        (·.name) := by
  rcases List.mem_map.mp hx with ⟨g, hg, hgx⟩
  by_cases hd : memb g.name
      (((sortByMtimeDesc (a1.filter (fun f => matchesPattern pfx f.name))).drop ak).map
        (·.name)) = true
  · right
    exact hgx ▸ memb_iff.mp hd
  · left
    refine hgx ▸ List.mem_map.mpr ⟨g, ?_, rfl⟩
    rw [List.mem_filter]
    exact ⟨hg, bnot_eq_true_of_ne hd⟩

/-- Claim C1 (amended): after a rotation run, unconditionally, the archive tier holds
at most `archiveKeep` bundles and every bundle name present before rotation survives in
the working or archive tier except the names deleted as archive overflow; and provided
the working tier's file names are distinct (as in any real directory) and no bundle
scheduled for archiving (those beyond the `workingKeep` newest pattern-matching
bundles) shares its name with a file already present in the archive tier, the working
tier holds at most `workingKeep` bundles.  (A name collision skips the move to avoid
overwriting, leaving the bundle in the working tier — see the counterexample.) -/
theorem cleanup_old_backups_spec (pfx : String) (wk ak : Nat)
    (working archive : List BFile) :
    bundleCount pfx (cleanup_old_backups pfx wk ak working archive).archive ≤ ak ∧
    (∀ f ∈ working ++ archive,
      f.name ∈ (cleanup_old_backups pfx wk ak working archive).working.map (·.name) ∨
      f.name ∈ (cleanup_old_backups pfx wk ak working archive).archive.map (·.name) ∨
      f.name ∈ (cleanup_old_backups pfx wk ak working archive).deleted) ∧
    ((working.map (·.name)).Nodup →
      (∀ f ∈ (sortByMtimeDesc (working.filter
          (fun f => matchesPattern pfx f.name))).drop wk,
        f.name ∉ archive.map (·.name)) →
      bundleCount pfx (cleanup_old_backups pfx wk ak working archive).working ≤ wk) := by
  set zips := sortByMtimeDesc (working.filter (fun f => matchesPattern pfx f.name)) with hzips
  simp only [cleanup_old_backups, bundleCount, ← hzips]
  refine ⟨?_, ?_, ?_⟩
  · exact prune_bound _ ak (moveAll archive (zips.drop wk)).1 _ (List.perm_insertionSort _ _)
  · intro f hf
    rcases List.mem_append.mp hf with hfw | hfa
    · by_cases hmem : memb f.name (moveAll archive (zips.drop wk)).2 = true
      · have hx : f.name ∈ (moveAll archive (zips.drop wk)).1.map (·.name) :=
          moveAll_names_mono (zips.drop wk) archive f.name (Or.inr (memb_iff.mp hmem))
        rcases mem_archive_or_deleted pfx ak (moveAll archive (zips.drop wk)).1 f.name hx
          with h | h
        · exact Or.inr (Or.inl h)
        · exact Or.inr (Or.inr h)
      · left
        refine List.mem_map.mpr ⟨f, ?_, rfl⟩
        rw [List.mem_filter]
        exact ⟨hfw, bnot_eq_true_of_ne hmem⟩
    · have hx : f.name ∈ (moveAll archive (zips.drop wk)).1.map (·.name) :=
        moveAll_names_mono (zips.drop wk) archive f.name
          (Or.inl (List.mem_map.mpr ⟨f, hfa, rfl⟩))
      rcases mem_archive_or_deleted pfx ak (moveAll archive (zips.drop wk)).1 f.name hx
        with h | h
      · exact Or.inr (Or.inl h)
      · exact Or.inr (Or.inr h)
  · intro hw hcol
    have hperm : zips.Perm (working.filter (fun f => matchesPattern pfx f.name)) :=
      List.perm_insertionSort _ _
    have hzn : (zips.map (·.name)).Nodup := by
      have hsub : ((working.filter (fun f => matchesPattern pfx f.name)).map (·.name)).Sublist
          (working.map (·.name)) := List.Sublist.map _ (List.filter_sublist working)
      have hnd1 : ((working.filter (fun f => matchesPattern pfx f.name)).map (·.name)).Nodup :=
        List.Nodup.sublist hsub hw
      exact ((hperm.map (·.name)).nodup_iff).mpr hnd1
    have hndd : ((zips.drop wk).map (·.name)).Nodup :=
      List.Nodup.sublist (List.Sublist.map (·.name) (List.drop_sublist wk zips)) hzn
    have hmv : moveAll archive (zips.drop wk) =
        (archive ++ zips.drop wk, (zips.drop wk).map (·.name)) :=
      moveAll_full _ _ hcol hndd
    rw [hmv]
    exact prune_bound _ wk working zips hperm

end Rotation

namespace Rotation

/-- Claim C1, counterexample: with working-keep 1, a second working bundle whose name
already exists in the archive tier is not moved (the move is skipped to avoid
overwriting), so two bundles remain in the working tier, exceeding the limit. -/
theorem c1_counterexample_working_bound :
    bundleCount "P" (cleanup_old_backups "P" 1 4
      [⟨"P_a.zip", 2⟩, ⟨"P_b.zip", 1⟩] [⟨"P_b.zip", 5⟩]).working = 2 ∧ ¬ (2 ≤ 1) := by
  decide

/-- Claim C1 witness: a concrete rotation; the unconditional conclusions hold outright
and the working bound's provisos are discharged by computation. -/
theorem c1_witness :
    bundleCount "B" (cleanup_old_backups "B" 1 4
      [⟨"B_1.zip", 1⟩, ⟨"B_2.zip", 2⟩, ⟨"B_3.zip", 3⟩] []).archive ≤ 4 ∧
    (∀ f ∈ ([⟨"B_1.zip", 1⟩, ⟨"B_2.zip", 2⟩, ⟨"B_3.zip", 3⟩] ++ [] : List BFile),
      f.name ∈ (cleanup_old_backups "B" 1 4
        [⟨"B_1.zip", 1⟩, ⟨"B_2.zip", 2⟩, ⟨"B_3.zip", 3⟩] []).working.map (·.name) ∨
      f.name ∈ (cleanup_old_backups "B" 1 4
        [⟨"B_1.zip", 1⟩, ⟨"B_2.zip", 2⟩, ⟨"B_3.zip", 3⟩] []).archive.map (·.name) ∨
      f.name ∈ (cleanup_old_backups "B" 1 4
        [⟨"B_1.zip", 1⟩, ⟨"B_2.zip", 2⟩, ⟨"B_3.zip", 3⟩] []).deleted) ∧
    bundleCount "B" (cleanup_old_backups "B" 1 4
      [⟨"B_1.zip", 1⟩, ⟨"B_2.zip", 2⟩, ⟨"B_3.zip", 3⟩] []).working ≤ 1 :=
  ⟨(cleanup_old_backups_spec "B" 1 4
      [⟨"B_1.zip", 1⟩, ⟨"B_2.zip", 2⟩, ⟨"B_3.zip", 3⟩] []).1,
   (cleanup_old_backups_spec "B" 1 4
      [⟨"B_1.zip", 1⟩, ⟨"B_2.zip", 2⟩, ⟨"B_3.zip", 3⟩] []).2.1,
   (cleanup_old_backups_spec "B" 1 4
      [⟨"B_1.zip", 1⟩, ⟨"B_2.zip", 2⟩, ⟨"B_3.zip", 3⟩] []).2.2 (by decide) (by decide)⟩

/-- Claim C9: six bundles with distinct modification times, working-keep 1,
archive-keep 4, empty archive: rotation leaves exactly the newest bundle in the
working tier, the four next-newest in the archive tier, and deletes exactly the
oldest. -/
theorem c9_rotation_six_bundles :
    cleanup_old_backups "BigSkyAg_Backup" 1 4
      [⟨"BigSkyAg_Backup_2024-01-01.zip", 1⟩, ⟨"BigSkyAg_Backup_2024-01-02.zip", 2⟩,
       ⟨"BigSkyAg_Backup_2024-01-03.zip", 3⟩, ⟨"BigSkyAg_Backup_2024-01-04.zip", 4⟩,
       ⟨"BigSkyAg_Backup_2024-01-05.zip", 5⟩, ⟨"BigSkyAg_Backup_2024-01-06.zip", 6⟩] [] =
    ⟨[⟨"BigSkyAg_Backup_2024-01-06.zip", 6⟩],
     [⟨"BigSkyAg_Backup_2024-01-05.zip", 5⟩, ⟨"BigSkyAg_Backup_2024-01-04.zip", 4⟩,
      ⟨"BigSkyAg_Backup_2024-01-03.zip", 3⟩, ⟨"BigSkyAg_Backup_2024-01-02.zip", 2⟩],
     ["BigSkyAg_Backup_2024-01-01.zip"]⟩ := by
  decide

end Rotation

namespace BaseProvider

theorem deleteLoop_all_ok (d : String → DeleteResult) (h : ∀ s, ∃ b, d s = .ok b) :
    ∀ l acc, deleteLoop d l acc = (true, acc ++ l.map (·.id)) := by
  intro l
  induction l with
  | nil => intro acc; simp [deleteLoop]
  | cons f rest ih =>
    intro acc
    obtain ⟨b, hb⟩ := h f.id
    rw [deleteLoop, hb, ih]
    simp

theorem deleteLoop_abort (d : String → DeleteResult) :
    ∀ (pre : List RFile) (fr : RFile) (post : List RFile) (acc : List String),
    (∀ g ∈ pre, ∃ b, d g.id = .ok b) → (∃ msg, d fr.id = .error msg) →
    deleteLoop d (pre ++ fr :: post) acc = (false, acc ++ pre.map (·.id) ++ [fr.id]) := by
  intro pre
  induction pre with
  | nil =>
    intro fr post acc _ herr
    obtain ⟨msg, hmsg⟩ := herr
    rw [List.nil_append, deleteLoop, hmsg]
    simp
  | cons g pre' ih =>
    intro fr post acc hok herr
    obtain ⟨b, hb⟩ := hok g (List.mem_cons_self g pre')
    rw [List.cons_append, deleteLoop, hb]
    rw [ih fr post (acc ++ [g.id]) (fun x hx => hok x (List.mem_cons_of_mem g hx)) herr]
    simp

/-- Claim C8 (amended): `cleanup_old_backups` deletes nothing when the listing has at
most `maxBackups` files; the sort is modification-time-descending; when every
`delete_file` call returns (failures reported by a `False` return are logged and
skipped), it attempts exactly the entries beyond the first `maxBackups` of that order
and reports success; and whenever the pruning sequence reaches a `delete_file` call
that raises (as every provider's `delete_file` does on backend errors), the loop
aborts there — the earlier entries and the raising one are the only deletions
attempted, the remaining ones are skipped, and cleanup reports failure. -/
theorem c8_cleanup_best_effort (files : List RFile) (d : String → DeleteResult)
    (maxBackups : Nat) :
    (files.length ≤ maxBackups → cleanup_old_backups files d maxBackups = (true, [])) ∧
    List.Sorted (fun a b => b.modified_time ≤ a.modified_time) (sortRFilesDesc files) ∧
    ((∀ s, ∃ b, d s = .ok b) → maxBackups < files.length →
      cleanup_old_backups files d maxBackups =
        (true, ((sortRFilesDesc files).drop maxBackups).map (·.id))) ∧
    (∀ (pre : List RFile) (fr : RFile) (post : List RFile),
      maxBackups < files.length →
      (sortRFilesDesc files).drop maxBackups = pre ++ fr :: post →
      (∀ g ∈ pre, ∃ b, d g.id = .ok b) → (∃ msg, d fr.id = .error msg) →
      cleanup_old_backups files d maxBackups = (false, pre.map (·.id) ++ [fr.id])) := by
  refine ⟨?_, ?_, ?_, ?_⟩
  · intro hle
    rw [cleanup_old_backups, if_pos hle]
  · exact List.sorted_insertionSort _ _
  · intro h hlt
    rw [cleanup_old_backups, if_neg (by omega), deleteLoop_all_ok d h]
    simp
  · intro pre fr post hlt hsplit hok herr
    rw [cleanup_old_backups, if_neg (by omega), hsplit, deleteLoop_abort d pre fr post [] hok herr]
    simp

/-- Claim C8 witness: three files, keep 1.  With an oracle that only ever returns, the
two oldest are attempted and the run succeeds; with an oracle that raises on the first
pruned entry, exactly that entry is attempted and the run fails. -/
theorem c8_witness :
    (([⟨"a", "a", 1, 3, "", "file"⟩, ⟨"b", "b", 1, 2, "", "file"⟩,
       ⟨"c", "c", 1, 1, "", "file"⟩] : List RFile).length ≤ 1 →
      cleanup_old_backups [⟨"a", "a", 1, 3, "", "file"⟩, ⟨"b", "b", 1, 2, "", "file"⟩,
        ⟨"c", "c", 1, 1, "", "file"⟩] (fun s => if s = "c" then .ok false else .ok true) 1 =
        (true, [])) ∧
    List.Sorted (fun a b => b.modified_time ≤ a.modified_time)
      (sortRFilesDesc [⟨"a", "a", 1, 3, "", "file"⟩, ⟨"b", "b", 1, 2, "", "file"⟩,
        ⟨"c", "c", 1, 1, "", "file"⟩]) ∧
    cleanup_old_backups [⟨"a", "a", 1, 3, "", "file"⟩, ⟨"b", "b", 1, 2, "", "file"⟩,
      ⟨"c", "c", 1, 1, "", "file"⟩] (fun s => if s = "c" then .ok false else .ok true) 1 =
      (true, ((sortRFilesDesc [⟨"a", "a", 1, 3, "", "file"⟩, ⟨"b", "b", 1, 2, "", "file"⟩,
        ⟨"c", "c", 1, 1, "", "file"⟩]).drop 1).map (·.id)) ∧
    cleanup_old_backups [⟨"a", "a", 1, 3, "", "file"⟩, ⟨"b", "b", 1, 2, "", "file"⟩,
      ⟨"c", "c", 1, 1, "", "file"⟩]
      (fun s => if s = "b" then .error "S3 delete failed: boom" else .ok true) 1 =
      (false, ([] : List RFile).map (·.id) ++ [(⟨"b", "b", 1, 2, "", "file"⟩ : RFile).id]) :=
  ⟨(c8_cleanup_best_effort [⟨"a", "a", 1, 3, "", "file"⟩, ⟨"b", "b", 1, 2, "", "file"⟩,
      ⟨"c", "c", 1, 1, "", "file"⟩] (fun s => if s = "c" then .ok false else .ok true) 1).1,
   (c8_cleanup_best_effort [⟨"a", "a", 1, 3, "", "file"⟩, ⟨"b", "b", 1, 2, "", "file"⟩,
      ⟨"c", "c", 1, 1, "", "file"⟩] (fun s => if s = "c" then .ok false else .ok true) 1).2.1,
   (c8_cleanup_best_effort [⟨"a", "a", 1, 3, "", "file"⟩, ⟨"b", "b", 1, 2, "", "file"⟩,
      ⟨"c", "c", 1, 1, "", "file"⟩] (fun s => if s = "c" then .ok false else .ok true) 1).2.2.1
     (fun s => if h : s = "c" then ⟨false, by rw [if_pos h]⟩ else ⟨true, by rw [if_neg h]⟩)
     (by decide),
   (c8_cleanup_best_effort [⟨"a", "a", 1, 3, "", "file"⟩, ⟨"b", "b", 1, 2, "", "file"⟩,
      ⟨"c", "c", 1, 1, "", "file"⟩]
      (fun s => if s = "b" then .error "S3 delete failed: boom" else .ok true) 1).2.2.2
     [] ⟨"b", "b", 1, 2, "", "file"⟩ [⟨"c", "c", 1, 1, "", "file"⟩]
     (by decide) (by decide) (fun g hg => absurd hg (by simp))
     ⟨"S3 delete failed: boom", rfl⟩⟩

/-- Claim C8, counterexample: a deletion that raises (every provider's `delete_file`
re-raises backend errors as exceptions) aborts the batch: with three files and
`maxBackups = 1`, the first pruned deletion raises, the run returns `False`, and the
second pruned entry (`"c"`) is never attempted — deletion failure by exception is
fatal to the batch, contradicting the claim. -/
theorem c8_counterexample_delete_exception :
    cleanup_old_backups
      [⟨"a", "a", 1, 3, "", "file"⟩, ⟨"b", "b", 1, 2, "", "file"⟩,
       ⟨"c", "c", 1, 1, "", "file"⟩]
      (fun s => if s = "b" then .error "S3 delete failed: boom" else .ok true) 1 =
      (false, ["b"]) := by
  decide

end BaseProvider

namespace UploadScript

open BigSky

theorem maxByMtime_cons (f c : ZFile) (rest : List ZFile) :
    maxByMtime f (c :: rest) = maxByMtime (if f.mtime < c.mtime then c else f) rest := rfl

theorem maxByMtime_mem : ∀ (rest : List ZFile) (f : ZFile), maxByMtime f rest ∈ f :: rest := by
  intro rest
  induction rest with
  | nil => intro f; simp [maxByMtime]
  | cons c t ih =>
    intro f
    rw [maxByMtime_cons]
    rcases List.mem_cons.mp (ih (if f.mtime < c.mtime then c else f)) with h | h
    · rw [h]
      by_cases hc : f.mtime < c.mtime
      · rw [if_pos hc]
        exact List.mem_cons_of_mem f (List.mem_cons_self c t)
      · rw [if_neg hc]
        exact List.mem_cons_self f (c :: t)
    · exact List.mem_cons_of_mem f (List.mem_cons_of_mem c h)

theorem maxByMtime_ge : ∀ (rest : List ZFile) (f g : ZFile), g ∈ f :: rest →
    g.mtime ≤ (maxByMtime f rest).mtime := by
  intro rest
  induction rest with
  | nil =>
    intro f g hg
    rcases List.mem_cons.mp hg with h | h
    · rw [h]; exact le_refl _
    · simp at h
  | cons c t ih =>
    intro f g hg
    rw [maxByMtime_cons]
    have hstep_f : f.mtime ≤ (if f.mtime < c.mtime then c else f).mtime := by
      by_cases hc : f.mtime < c.mtime
      · rw [if_pos hc]; omega
      · rw [if_neg hc]
    have hstep_c : c.mtime ≤ (if f.mtime < c.mtime then c else f).mtime := by
      by_cases hc : f.mtime < c.mtime
      · rw [if_pos hc]
      · rw [if_neg hc]; omega
    have hhead : (if f.mtime < c.mtime then c else f).mtime ≤
        (maxByMtime (if f.mtime < c.mtime then c else f) t).mtime :=
      ih _ _ (List.mem_cons_self _ t)
    rcases List.mem_cons.mp hg with h | h
    · subst h
      exact le_trans hstep_f hhead
    · rcases List.mem_cons.mp h with h2 | h2
      · subst h2
        exact le_trans hstep_c hhead
      · exact ih _ g (List.mem_cons_of_mem _ h2)

/-- Claim C7, counterexample: `find_latest_backup` globs `*.zip`, not the bundle-name
pattern `{prefix}_{timestamp}.zip`; a stray `random.zip` newer than every bundle is
selected even though it does not match the bundle-name pattern. -/
theorem c7_counterexample_nonbundle_selected :
    find_latest_backup true
      [⟨"random.zip", 10, 5⟩, ⟨"BigSkyAg_Backup_2024-01-01.zip", 1, 5⟩] =
      some ⟨"random.zip", 10, 5⟩ ∧
    Rotation.matchesPattern "BigSkyAg_Backup" "random.zip" = false := by
  decide

/-- Claim C7 (amended): in an existing backup directory whose `*.zip` glob is nonempty,
`find_latest_backup` considers exactly the first `.zip` file of maximal modification
time: it selects that file when it is non-empty and fails (selects nothing) when it is
empty; the candidate is a `.zip` file and is at least as new as every `.zip` file in
the directory — but the selection is among all `.zip` files, not only those matching
the bundle-name pattern. -/
theorem c7_find_latest_spec (files : List ZFile) (f : ZFile) (rest : List ZFile)
    (hfilter : files.filter (fun g => pyEndsWith g.name ".zip") = f :: rest) :
    ((maxByMtime f rest).size ≠ 0 →
      find_latest_backup true files = some (maxByMtime f rest)) ∧
    ((maxByMtime f rest).size = 0 → find_latest_backup true files = none) ∧
    pyEndsWith (maxByMtime f rest).name ".zip" = true ∧
    (∀ g ∈ files, pyEndsWith g.name ".zip" = true →
      g.mtime ≤ (maxByMtime f rest).mtime) := by
  refine ⟨?_, ?_, ?_, ?_⟩
  · intro hsz
    rw [find_latest_backup]
    simp only [Bool.true_eq_false, if_false, hfilter]
    rw [if_neg hsz]
  · intro hsz
    rw [find_latest_backup]
    simp only [Bool.true_eq_false, if_false, hfilter]
    rw [if_pos hsz]
  · have hmem : maxByMtime f rest ∈ files.filter (fun g => pyEndsWith g.name ".zip") := by
      rw [hfilter]
      exact maxByMtime_mem rest f
    exact (List.mem_filter.mp hmem).2
  · intro g hg hzip
    have : g ∈ files.filter (fun g => pyEndsWith g.name ".zip") :=
      List.mem_filter.mpr ⟨hg, hzip⟩
    rw [hfilter] at this
    exact maxByMtime_ge rest f g this

/-- Claim C7 witness: a directory with two `.zip` files and a `.txt` file selects the
newer `.zip`; a directory whose only (hence newest) `.zip` file is empty selects
nothing. -/
theorem c7_witness :
    find_latest_backup true
      [⟨"a.zip", 1, 5⟩, ⟨"b.zip", 3, 7⟩, ⟨"notes.txt", 9, 2⟩] =
      some (maxByMtime ⟨"a.zip", 1, 5⟩ [⟨"b.zip", 3, 7⟩]) ∧
    pyEndsWith (maxByMtime (⟨"a.zip", 1, 5⟩ : ZFile) [⟨"b.zip", 3, 7⟩]).name ".zip" = true ∧
    (∀ g ∈ ([⟨"a.zip", 1, 5⟩, ⟨"b.zip", 3, 7⟩, ⟨"notes.txt", 9, 2⟩] : List ZFile),
      pyEndsWith g.name ".zip" = true →
      g.mtime ≤ (maxByMtime (⟨"a.zip", 1, 5⟩ : ZFile) [⟨"b.zip", 3, 7⟩]).mtime) ∧
    find_latest_backup true [⟨"empty.zip", 5, 0⟩] = none :=
  ⟨(c7_find_latest_spec [⟨"a.zip", 1, 5⟩, ⟨"b.zip", 3, 7⟩, ⟨"notes.txt", 9, 2⟩]
      ⟨"a.zip", 1, 5⟩ [⟨"b.zip", 3, 7⟩] (by decide)).1 (by decide),
   (c7_find_latest_spec [⟨"a.zip", 1, 5⟩, ⟨"b.zip", 3, 7⟩, ⟨"notes.txt", 9, 2⟩]
      ⟨"a.zip", 1, 5⟩ [⟨"b.zip", 3, 7⟩] (by decide)).2.2.1,
   (c7_find_latest_spec [⟨"a.zip", 1, 5⟩, ⟨"b.zip", 3, 7⟩, ⟨"notes.txt", 9, 2⟩]
      ⟨"a.zip", 1, 5⟩ [⟨"b.zip", 3, 7⟩] (by decide)).2.2.2,
   (c7_find_latest_spec [⟨"empty.zip", 5, 0⟩] ⟨"empty.zip", 5, 0⟩ [] (by decide)).2.1
     (by decide)⟩

end UploadScript

namespace Providers

open BigSky

/-- Claim C5: for every supported provider variant (local disk, Dropbox, S3, Google
Drive), `list_files` on a folder that does not exist on the backend returns the empty
sequence and raises no error.  Nonexistence is expressed per backend: a missing search
path for local disk; a `files_list_folder` exception containing `not_found` (the
Dropbox API's behaviour on a missing path) for Dropbox; a `list_objects_v2` response
without a `Contents` key for S3; a folder query with no match for Google Drive. -/
theorem c5_list_files_nonexistent_empty
    (fs : LocalFS) (root lfolder : String)
    (hl : fs.pathExists (if lfolder = "" then root else joinPath root lfolder) = false)
    (dapi : DropboxAPI) (dfolder msg : String) (hdne : dfolder ≠ "")
    (hd : dapi.filesListFolder ("/" ++ dfolder) = .error msg)
    (hmsg : pyContains (pyLower msg) "not_found" = true)
    (sapi : S3API) (bucket region sfolder : String) (hsne : sfolder ≠ "")
    (hs : sapi.listObjectsV2 bucket (sfolder ++ "/") "/" = .ok ⟨none⟩)
    (gapi : GDriveAPI) (rootId gfolder : String) (hgne : gfolder ≠ "")
    (hg : gapi.filesList (gdriveFolderQuery gfolder rootId) = .ok []) :
    local_list_files fs root lfolder = .ok [] ∧
    dropbox_list_files dapi dfolder = .ok [] ∧
    s3_list_files sapi bucket region sfolder = .ok [] ∧
    gdrive_list_files gapi rootId gfolder = .ok [] := by
  refine ⟨?_, ?_, ?_, ?_⟩
  · rw [local_list_files]
    simp only [hl]
    simp
  · rw [dropbox_list_files]
    simp only [if_neg hdne, hd]
    rw [if_pos hmsg]
  · rw [s3_list_files]
    simp only [if_neg hsne, hs]
  · rw [gdrive_list_files, gdrive_get_folder_id]
    simp only [if_neg hgne, Option.getD_none, hg, List.head?_nil, Option.map_none, truthyId]
    simp

/-- Claim C5 witness: concrete empty backends for all four variants. -/
theorem c5_witness :
    local_list_files ⟨fun _ => false, fun _ => []⟩ "/root" "missing" = .ok [] ∧
    dropbox_list_files ⟨fun _ => .error "ApiError: path/not_found/...", fun _ => .ok ""⟩
      "missing" = .ok [] ∧
    s3_list_files ⟨fun _ _ _ => .ok ⟨none⟩⟩ "bucket" "us-west-2" "missing" = .ok [] ∧
    gdrive_list_files ⟨fun _ => .ok []⟩ "root" "missing" = .ok [] :=
  c5_list_files_nonexistent_empty
    ⟨fun _ => false, fun _ => []⟩ "/root" "missing" rfl
    ⟨fun _ => .error "ApiError: path/not_found/...", fun _ => .ok ""⟩ "missing"
      "ApiError: path/not_found/..." (by decide) rfl (by decide)
    ⟨fun _ _ _ => .ok ⟨none⟩⟩ "bucket" "us-west-2" "missing" (by decide) rfl
    ⟨fun _ => .ok []⟩ "root" "missing" (by decide) rfl

/-- Inversion: a successful `_validate_config` means both required keys are present and
both referenced files exist. -/
theorem gdrive_validate_ok_inv (cfg : List (String × String)) (fileExists : String → Bool)
    (hok : gdrive_validate_config cfg fileExists = .ok ()) :
    (∃ p, lookupKey cfg "credentials_path" = some p ∧ fileExists p = true) ∧
    (∃ p, lookupKey cfg "token_path" = some p ∧ fileExists p = true) := by
  rw [gdrive_validate_config] at hok
  by_cases h1 : (lookupKey cfg "credentials_path").isNone = true
  · rw [if_pos h1] at hok
    exact absurd hok (by simp)
  · rw [if_neg h1] at hok
    by_cases h2 : (lookupKey cfg "token_path").isNone = true
    · rw [if_pos h2] at hok
      exact absurd hok (by simp)
    · rw [if_neg h2] at hok
      obtain ⟨p, hp⟩ : ∃ p, lookupKey cfg "credentials_path" = some p := by
        cases hh : lookupKey cfg "credentials_path" with
        | none => exact absurd (by rw [hh]; rfl) h1
        | some v => exact ⟨v, rfl⟩
      obtain ⟨q, hq⟩ : ∃ q, lookupKey cfg "token_path" = some q := by
        cases hh : lookupKey cfg "token_path" with
        | none => exact absurd (by rw [hh]; rfl) h2
        | some v => exact ⟨v, rfl⟩
      simp only [hp, hq, Option.getD_some] at hok
      by_cases h3 : fileExists p = false
      · rw [if_pos h3] at hok
        exact absurd hok (by simp)
      · rw [if_neg h3] at hok
        by_cases h4 : fileExists q = false
        · rw [if_pos h4] at hok
          exact absurd hok (by simp)
        · exact ⟨⟨p, hp, by revert h3; cases fileExists p <;> simp⟩,
                 ⟨q, hq, by revert h4; cases fileExists q <;> simp⟩⟩

/-- A constructor given a failed validation result performs no backend work. -/
theorem provider_construct_error (v : Except String Unit) (e : String) (hv : v = .error e) :
    ∀ (initResult : Except String Unit) (initEvents : List ProviderEvent),
    provider_construct v initResult initEvents = (.error e, []) := by
  intro initResult initEvents
  rw [hv, provider_construct]

/-- Claim C6: for every provider variant and every configuration on which its
`_validate_config` fails — a required key missing (all four variants), the AWS
credential environment variables absent (S3), or a referenced credential file missing
(Google Drive) — construction aborts with that configuration error before
`_initialize_provider`: no initialization round-trip, no authentication, no network
call occurs (the event trace is empty). -/
theorem c6_validate_fail_no_network (lcfg dcfg scfg gcfg : List (String × String))
    (env : String → Option String) (fileExists : String → Bool)
    (hl : lookupKey lcfg "storage_path" = none)
    (hd : lookupKey dcfg "access_token" = none)
    (hs : lookupKey scfg "bucket_name" = none ∨ lookupKey scfg "region_name" = none ∨
      s3_has_credentials env = false)
    (hg : lookupKey gcfg "credentials_path" = none ∨ lookupKey gcfg "token_path" = none ∨
      (∃ p, lookupKey gcfg "credentials_path" = some p ∧ fileExists p = false) ∨
      (∃ p, lookupKey gcfg "token_path" = some p ∧ fileExists p = false)) :
    (∃ e, local_validate_config lcfg = .error e ∧
      ∀ (initResult : Except String Unit) (initEvents : List ProviderEvent),
        provider_construct (local_validate_config lcfg) initResult initEvents =
          (.error e, [])) ∧
    (∃ e, dropbox_validate_config dcfg = .error e ∧
      ∀ (initResult : Except String Unit) (initEvents : List ProviderEvent),
        provider_construct (dropbox_validate_config dcfg) initResult initEvents =
          (.error e, [])) ∧
    (∃ e, s3_validate_config scfg env = .error e ∧
      ∀ (initResult : Except String Unit) (initEvents : List ProviderEvent),
        provider_construct (s3_validate_config scfg env) initResult initEvents =
          (.error e, [])) ∧
    (∃ e, gdrive_validate_config gcfg fileExists = .error e ∧
      ∀ (initResult : Except String Unit) (initEvents : List ProviderEvent),
        provider_construct (gdrive_validate_config gcfg fileExists) initResult initEvents =
          (.error e, [])) := by
  refine ⟨?_, ?_, ?_, ?_⟩
  · have hv : local_validate_config lcfg = .error "Missing required config key: storage_path" := by
      rw [local_validate_config, if_pos (by rw [hl]; rfl)]
    exact ⟨_, hv, provider_construct_error _ _ hv⟩
  · have hv : dropbox_validate_config dcfg = .error "Missing required config key: access_token" := by
      rw [dropbox_validate_config, if_pos (by rw [hd]; rfl)]
    exact ⟨_, hv, provider_construct_error _ _ hv⟩
  · have hv : ∃ e, s3_validate_config scfg env = .error e := by
      by_cases hb : (lookupKey scfg "bucket_name").isNone = true
      · exact ⟨_, by rw [s3_validate_config, if_pos hb]⟩
      · by_cases hr : (lookupKey scfg "region_name").isNone = true
        · exact ⟨_, by rw [s3_validate_config, if_neg hb, if_pos hr]⟩
        · have hcred : s3_has_credentials env = false := by
            rcases hs with h | h | h
            · exact absurd (by rw [h]; rfl) hb
            · exact absurd (by rw [h]; rfl) hr
            · exact h
          exact ⟨_, by rw [s3_validate_config, if_neg hb, if_neg hr, if_pos hcred]⟩
    obtain ⟨e, hv⟩ := hv
    exact ⟨e, hv, provider_construct_error _ _ hv⟩
  · rcases hv : gdrive_validate_config gcfg fileExists with e | u
    · exact ⟨e, rfl, provider_construct_error _ _ rfl⟩
    · exfalso
      cases u
      obtain ⟨⟨p, hp, hpt⟩, ⟨q, hq, hqt⟩⟩ := gdrive_validate_ok_inv gcfg fileExists hv
      rcases hg with h | h | ⟨r, hr, hrf⟩ | ⟨r, hr, hrf⟩
      · rw [h] at hp
        exact Option.noConfusion hp
      · rw [h] at hq
        exact Option.noConfusion hq
      · rw [hr] at hp
        cases hp
        rw [hpt] at hrf
        exact Bool.noConfusion hrf
      · rw [hr] at hq
        cases hq
        rw [hqt] at hrf
        exact Bool.noConfusion hrf

/-- Claim C6 witness: empty configurations, an empty environment and an
always-missing filesystem fail validation for all four variants, and construction
records no backend event for any of them. -/
theorem c6_witness :
    (∃ e, local_validate_config [] = .error e ∧
      ∀ (initResult : Except String Unit) (initEvents : List ProviderEvent),
        provider_construct (local_validate_config []) initResult initEvents =
          (.error e, [])) ∧
    (∃ e, dropbox_validate_config [] = .error e ∧
      ∀ (initResult : Except String Unit) (initEvents : List ProviderEvent),
        provider_construct (dropbox_validate_config []) initResult initEvents =
          (.error e, [])) ∧
    (∃ e, s3_validate_config [] (fun _ => none) = .error e ∧
      ∀ (initResult : Except String Unit) (initEvents : List ProviderEvent),
        provider_construct (s3_validate_config [] (fun _ => none)) initResult initEvents =
          (.error e, [])) ∧
    (∃ e, gdrive_validate_config [] (fun _ => false) = .error e ∧
      ∀ (initResult : Except String Unit) (initEvents : List ProviderEvent),
        provider_construct (gdrive_validate_config [] (fun _ => false)) initResult
          initEvents = (.error e, [])) :=
  c6_validate_fail_no_network [] [] [] [] (fun _ => none) (fun _ => false)
    rfl rfl (Or.inl rfl) (Or.inl rfl)

end Providers

namespace Chunked

theorem newChunks_nil (uploaded : List Nat) : newChunks [] uploaded = [] := rfl

theorem newChunks_cons_mem {c : Nat} {uploaded : List Nat} (rest : List Nat)
    (hc : c ∈ uploaded) : newChunks (c :: rest) uploaded = newChunks rest uploaded := by
  simp [newChunks, hc]

theorem newChunks_cons_new {c : Nat} {uploaded : List Nat} (rest : List Nat)
    (hc : c ∉ uploaded) : newChunks (c :: rest) uploaded = c :: newChunks rest uploaded := by
  simp [newChunks, hc]

theorem newChunks_shift {c : Nat} {rest uploaded : List Nat} (hc : c ∉ rest) :
    newChunks rest (uploaded ++ [c]) = newChunks rest uploaded := by
  unfold newChunks
  apply List.filter_congr
  intro x hx
  have hxc : x ≠ c := fun h => hc (h ▸ hx)
  simp [List.mem_append, hxc]

theorem uploadLoop_success (succ : Nat → Nat → Bool) (path : String) (size : Nat) :
    ∀ (chunks uploaded : List Nat) (stateFile : Option UploadState),
    chunks.Nodup →
    (∀ c ∈ chunks, c ∉ uploaded → upload_chunk succ c = true) →
    uploadLoop succ path size chunks uploaded stateFile =
      ⟨true, newChunks chunks uploaded, none,
        (prefixesFrom uploaded (newChunks chunks uploaded)).map
          (fun l => ⟨path, size, l⟩)⟩ := by
  intro chunks
  induction chunks with
  | nil =>
    intro uploaded stateFile _ _
    rw [uploadLoop, newChunks_nil]
    rfl
  | cons c rest ih =>
    intro uploaded stateFile hnd hok
    have hndr : rest.Nodup := (List.nodup_cons.mp hnd).2
    have hcr : c ∉ rest := (List.nodup_cons.mp hnd).1
    rw [uploadLoop]
    by_cases hc : c ∈ uploaded
    · rw [if_pos hc, newChunks_cons_mem rest hc]
      exact ih uploaded stateFile hndr (fun x hx => hok x (List.mem_cons_of_mem c hx))
    · rw [if_neg hc, if_pos (hok c (List.mem_cons_self c rest) hc)]
      dsimp only
      rw [ih (uploaded ++ [c]) (some ⟨path, size, uploaded ++ [c]⟩) hndr
        (fun x hx hxn => hok x (List.mem_cons_of_mem c hx)
          (fun hxu => hxn (List.mem_append_left [c] hxu)))]
      rw [newChunks_cons_new rest hc, newChunks_shift hcr]
      rw [prefixesFrom]
      rfl

theorem uploadLoop_fail (succ : Nat → Nat → Bool) (path : String) (size : Nat) :
    ∀ (chunks uploaded : List Nat) (stateFile : Option UploadState),
    stateFile.isSome = true →
    (∃ c ∈ chunks, c ∉ uploaded ∧ upload_chunk succ c = false) →
    (uploadLoop succ path size chunks uploaded stateFile).success = false ∧
    (uploadLoop succ path size chunks uploaded stateFile).finalState.isSome = true := by
  intro chunks
  induction chunks with
  | nil =>
    intro uploaded stateFile _ hex
    simp at hex
  | cons c rest ih =>
    intro uploaded stateFile hsome hex
    obtain ⟨w, hw, hwn, hwf⟩ := hex
    rw [uploadLoop]
    by_cases hc : c ∈ uploaded
    · rw [if_pos hc]
      have hwr : w ∈ rest := by
        rcases List.mem_cons.mp hw with h | h
        · exact absurd (h ▸ hc) hwn
        · exact h
      exact ih uploaded stateFile hsome ⟨w, hwr, hwn, hwf⟩
    · rw [if_neg hc]
      by_cases hup : upload_chunk succ c = true
      · rw [if_pos hup]
        dsimp only
        have hwc : w ≠ c := by
          intro h
          rw [h, hup] at hwf
          exact Bool.noConfusion hwf
        have hwr : w ∈ rest := by
          rcases List.mem_cons.mp hw with h | h
          · exact absurd h hwc
          · exact h
        have hwn' : w ∉ uploaded ++ [c] := by
          intro h
          rcases List.mem_append.mp h with h | h
          · exact hwn h
          · exact hwc (by simpa using h)
        have := ih (uploaded ++ [c]) (some ⟨path, size, uploaded ++ [c]⟩) rfl
          ⟨w, hwr, hwn', hwf⟩
        exact this
      · rw [if_neg hup]
        exact ⟨rfl, hsome⟩

/-- Claim C2: resuming a chunked upload from a persisted state whose recorded path and
size match the target file, the run uploads exactly the chunk numbers not in the
recorded set (in order), rewrites the state file after each success with the recorded
set extended by the newly uploaded chunks so far, and deletes the state file exactly
when every chunk has been uploaded; if some required chunk fails all its retries, the
run reports failure and a state file remains on disk. -/
theorem c2_chunked_resume (stored : Option UploadState) (st : UploadState) (path : String)
    (size : Nat) (succ : Nat → Nat → Bool)
    (hst : stored = some st) (hp : st.file_path = path) (hs : st.file_size = size) :
    ((∀ c ∈ List.range (numChunks size), c ∉ st.uploaded_chunks →
        upload_chunk succ c = true) →
      upload_file stored path size succ =
        ⟨true, newChunks (List.range (numChunks size)) st.uploaded_chunks, none,
          (prefixesFrom st.uploaded_chunks
            (newChunks (List.range (numChunks size)) st.uploaded_chunks)).map
            (fun l => ⟨path, size, l⟩)⟩) ∧
    ((∃ c ∈ List.range (numChunks size), c ∉ st.uploaded_chunks ∧
        upload_chunk succ c = false) →
      (upload_file stored path size succ).success = false ∧
      (upload_file stored path size succ).finalState.isSome = true) := by
  have hload : load_upload_state stored path size = st.uploaded_chunks := by
    rw [hst, load_upload_state, if_pos ⟨hp, hs⟩]
  constructor
  · intro hok
    rw [upload_file, hload]
    exact uploadLoop_success succ path size _ _ stored (List.nodup_range _) hok
  · intro hex
    rw [upload_file, hload]
    exact uploadLoop_fail succ path size _ _ stored (by rw [hst]; rfl) hex

/-- Claim C2 witness: a 5-chunk bundle interrupted after chunks 0 and 1 (human chunks 1
and 2); the re-run uploads exactly chunks 2, 3, 4 (human 3-5), records each success,
and removes the state file. -/
theorem c2_witness :
    upload_file (some ⟨"b.zip", 5 * CHUNK_SIZE, [0, 1]⟩) "b.zip" (5 * CHUNK_SIZE)
      (fun _ _ => true) =
      ⟨true, newChunks (List.range (numChunks (5 * CHUNK_SIZE))) [0, 1], none,
        (prefixesFrom [0, 1]
          (newChunks (List.range (numChunks (5 * CHUNK_SIZE))) [0, 1])).map
          (fun l => ⟨"b.zip", 5 * CHUNK_SIZE, l⟩)⟩ ∧
    newChunks (List.range (numChunks (5 * CHUNK_SIZE))) [0, 1] = [2, 3, 4] :=
  ⟨(c2_chunked_resume (some ⟨"b.zip", 5 * CHUNK_SIZE, [0, 1]⟩) ⟨"b.zip", 5 * CHUNK_SIZE, [0, 1]⟩
      "b.zip" (5 * CHUNK_SIZE) (fun _ _ => true) rfl rfl rfl).1
    (fun c _ _ => by rw [upload_chunk]; rfl),
   by decide⟩

end Chunked

namespace BigSky

theorem string_eq_of_data {s t : String} (h : s.data = t.data) : s = t := by
  cases s
  cases t
  simp_all


end BigSky

namespace Router

open BigSky

theorem validate_valid (f : DZFile) (hod : f.onDisk = true) (hif : f.isFile = true)
    (hne : f.content ≠ []) (hrd : f.readable = true) :
    validate_file_for_routing f = (true, "File is valid") := by
  rw [validate_file_for_routing]
  rw [if_neg (by rw [hod]; exact Bool.noConfusion)]
  rw [if_neg (by rw [hif]; exact Bool.noConfusion)]
  rw [if_neg (by simpa using hne)]
  rw [if_neg (by rw [hrd]; exact Bool.noConfusion)]

/-- Claim C3: a valid drop-zone file whose content hash matches a same-extension
regular file already at the resolved destination is deleted from the drop zone,
creates no new destination file (the folder is unchanged), and is counted as a handled
duplicate, not as routed; and routing an empty drop zone changes nothing and reports
success. -/
theorem c3_duplicate_handling (hashFn : List Nat → String) (f : DZFile)
    (dest : List DestFile) (dests : DestMap)
    (hod : f.onDisk = true) (hif : f.isFile = true) (hne : f.content ≠ [])
    (hrd : f.readable = true) (hnh : hashFn f.content ≠ "")
    (hdup : ∃ g ∈ dest, g.isFile = true ∧ pyLower (pySuffix g.name) = pyLower (pySuffix f.name) ∧
      hashFn g.content = hashFn f.content) :
    route_single_file hashFn f dest = ⟨dest, true, true, 0, 1, [], [], none, true⟩ ∧
    route_files hashFn [] dests = ⟨[], dests, true, 0, 0, [], [], [], []⟩ := by
  constructor
  · have hfind : (find_duplicate_by_content hashFn f true dest).isSome = true := by
      rw [find_duplicate_by_content]
      rw [if_neg (by exact Bool.noConfusion)]
      rw [if_neg hnh]
      rw [List.find?_isSome]
      obtain ⟨g, hg, hgf, hgs, hgh⟩ := hdup
      exact ⟨g, hg, by simp [hgf, hgs, hgh]⟩
    rw [route_single_file, validate_valid f hod hif hne hrd]
    rw [if_neg (by exact Bool.noConfusion)]
    rcases hfd : find_duplicate_by_content hashFn f true dest with _ | g
    · rw [hfd] at hfind
      exact absurd hfind (by simp)
    · rfl
  · rfl

/-- Claim C3 witness: a drop-zone `report.pdf` whose bytes hash equally to an existing
`old.pdf` at the destination is handled as a duplicate; the empty-drop-zone run is a
no-op. -/
theorem c3_witness :
    route_single_file (fun c => String.mk (c.map Nat.digitChar)) ⟨"report.pdf", [1, 2], true, true, true⟩
      [⟨"old.pdf", [1, 2], true⟩] =
      ⟨[⟨"old.pdf", [1, 2], true⟩], true, true, 0, 1, [], [], none, true⟩ ∧
    route_files (fun c => String.mk (c.map Nat.digitChar)) [] [("admin", [])] =
      ⟨[], [("admin", [])], true, 0, 0, [], [], [], []⟩ :=
  c3_duplicate_handling (fun c => String.mk (c.map Nat.digitChar))
    ⟨"report.pdf", [1, 2], true, true, true⟩ [⟨"old.pdf", [1, 2], true⟩] [("admin", [])]
    rfl rfl (by decide) rfl (by decide)
    ⟨⟨"old.pdf", [1, 2], true⟩, by decide, rfl, by decide, rfl⟩

end Router

namespace Router

open BigSky

theorem mkIndexedName_inj (stem ext : String) {m n : Nat}
    (h : mkIndexedName stem ext m = mkIndexedName stem ext n) : m = n := by
  unfold mkIndexedName at h
  have hd := congrArg String.data h
  simp only [String.data_append] at hd
  have h1 := List.append_cancel_right hd
  have h2 := List.append_cancel_left h1
  exact natToDec_injective (string_eq_of_data h2)

theorem genLoop_sound (stem ext : String) (names : List String) :
    ∀ (fuel c0 : Nat) (nm : String), genLoop stem ext names c0 fuel = some nm →
    ∃ i, i < fuel ∧ nm = mkIndexedName stem ext (c0 + i) ∧
      memb nm names = false ∧
      ∀ j, j < i → memb (mkIndexedName stem ext (c0 + j)) names = true := by
  intro fuel
  induction fuel with
  | zero =>
    intro c0 nm h
    exact Option.noConfusion h
  | succ fuel ih =>
    intro c0 nm h
    rw [genLoop] at h
    by_cases hm : memb (mkIndexedName stem ext c0) names = true
    · rw [if_pos hm] at h
      obtain ⟨i, hi, hnm, hfree, hmin⟩ := ih (c0 + 1) nm h
      refine ⟨i + 1, by omega, by rw [hnm]; congr 1; omega, hfree, ?_⟩
      intro j hj
      cases j with
      | zero => simpa using hm
      | succ j' =>
        have := hmin j' (by omega)
        have harg : c0 + 1 + j' = c0 + (j' + 1) := by omega
        rw [harg] at this
        exact this
    · rw [if_neg hm] at h
      refine ⟨0, by omega, by simpa using (Option.some.injEq _ _ ▸ h).symm, ?_, ?_⟩
      · have hnm : nm = mkIndexedName stem ext c0 := by
          have := h
          simp only [Option.some.injEq] at this
          exact this.symm
        rw [hnm]
        cases hmm : memb (mkIndexedName stem ext c0) names
        · rfl
        · exact absurd hmm hm
      · intro j hj
        omega

theorem genLoop_some (stem ext : String) (names : List String) :
    ∀ (fuel c0 : Nat),
    (∃ i, i < fuel ∧ memb (mkIndexedName stem ext (c0 + i)) names = false) →
    ∃ nm, genLoop stem ext names c0 fuel = some nm := by
  intro fuel
  induction fuel with
  | zero =>
    intro c0 ⟨i, hi, _⟩
    omega
  | succ fuel ih =>
    intro c0 ⟨i, hi, hf⟩
    rw [genLoop]
    by_cases hm : memb (mkIndexedName stem ext c0) names = true
    · rw [if_pos hm]
      refine ih (c0 + 1) ⟨i - 1, ?_, ?_⟩
      · cases i with
        | zero => rw [Nat.add_zero] at hf; rw [hf] at hm; exact Bool.noConfusion hm
        | succ i' => omega
      · cases i with
        | zero => rw [Nat.add_zero] at hf; rw [hf] at hm; exact Bool.noConfusion hm
        | succ i' =>
          have harg : c0 + 1 + (i' + 1 - 1) = c0 + (i' + 1) := by omega
          rw [harg]
          exact hf
    · rw [if_neg hm]
      exact ⟨_, rfl⟩

theorem exists_free_name (stem ext : String) (names : List String) :
    ∃ i, i < names.length + 1 ∧ memb (mkIndexedName stem ext (1 + i)) names = false := by
  by_contra hall
  push_neg at hall
  have hmem : ∀ i, i < names.length + 1 → mkIndexedName stem ext (1 + i) ∈ names := by
    intro i hi
    have := hall i hi
    have hb : memb (mkIndexedName stem ext (1 + i)) names = true := by
      cases hmm : memb (mkIndexedName stem ext (1 + i)) names
      · exact absurd hmm this
      · rfl
    exact memb_iff.mp hb
  have hsub : (Finset.range (names.length + 1)).image
      (fun i => mkIndexedName stem ext (1 + i)) ⊆ names.toFinset := by
    intro x hx
    obtain ⟨i, hi, hix⟩ := Finset.mem_image.mp hx
    rw [List.mem_toFinset]
    exact hix ▸ hmem i (Finset.mem_range.mp hi)
  have hinj : Set.InjOn (fun i => mkIndexedName stem ext (1 + i))
      ↑(Finset.range (names.length + 1)) := by
    intro a _ b _ hab
    have := mkIndexedName_inj stem ext hab
    omega
  have hcard : ((Finset.range (names.length + 1)).image
      (fun i => mkIndexedName stem ext (1 + i))).card = names.length + 1 := by
    rw [Finset.card_image_of_injOn hinj, Finset.card_range]
  have hle : names.length + 1 ≤ names.toFinset.card := by
    rw [← hcard]
    exact Finset.card_le_card hsub
  have := List.toFinset_card_le names
  omega

/-- `generate_unique_filename` really returns `{stem}_{n}{ext}` for the least free
`n ≥ 1`: the fuel always suffices. -/
theorem generate_unique_spec (name : String) (names : List String) :
    ∃ n, 1 ≤ n ∧
      generate_unique_filename name names = mkIndexedName (pyStem name) (pySuffix name) n ∧
      memb (mkIndexedName (pyStem name) (pySuffix name) n) names = false ∧
      ∀ m, 1 ≤ m → m < n → memb (mkIndexedName (pyStem name) (pySuffix name) m) names = true := by
  obtain ⟨i0, hi0, hfree0⟩ := exists_free_name (pyStem name) (pySuffix name) names
  obtain ⟨nm, hnm⟩ := genLoop_some (pyStem name) (pySuffix name) names
    (names.length + 1) 1 ⟨i0, hi0, hfree0⟩
  obtain ⟨i, _, hnmeq, hfree, hmin⟩ := genLoop_sound (pyStem name) (pySuffix name) names
    (names.length + 1) 1 nm hnm
  refine ⟨1 + i, by omega, ?_, hnmeq ▸ hfree, ?_⟩
  · rw [generate_unique_filename, hnm, Option.getD_some, hnmeq]
  · intro m hm1 hmi
    have := hmin (m - 1) (by omega)
    have harg : 1 + (m - 1) = m := by omega
    rw [harg] at this
    exact this

end Router

namespace Router

open BigSky

/-- Claim C4: a valid drop-zone file that is not a content duplicate but whose name
already exists at the resolved destination is moved to `{stem}_{n}{ext}` where `n` is
the least positive integer whose candidate name is absent from the destination; the
destination gains exactly that one new file and every existing file is untouched
(never overwritten). -/
theorem c4_name_collision (hashFn : List Nat → String) (f : DZFile) (dest : List DestFile)
    (hod : f.onDisk = true) (hif : f.isFile = true) (hne : f.content ≠ [])
    (hrd : f.readable = true)
    (hnodup : ∀ g ∈ dest, ¬(g.isFile = true ∧
      pyLower (pySuffix g.name) = pyLower (pySuffix f.name) ∧
      hashFn g.content = hashFn f.content))
    (hcoll : f.name ∈ dest.map (·.name)) :
    ∃ n, 1 ≤ n ∧
      route_single_file hashFn f dest =
        ⟨dest ++ [⟨mkIndexedName (pyStem f.name) (pySuffix f.name) n, f.content, true⟩],
          true, true, 1, 0, [], [],
          some (mkIndexedName (pyStem f.name) (pySuffix f.name) n), true⟩ ∧
      memb (mkIndexedName (pyStem f.name) (pySuffix f.name) n) (dest.map (·.name)) = false ∧
      ∀ m, 1 ≤ m → m < n →
        memb (mkIndexedName (pyStem f.name) (pySuffix f.name) m) (dest.map (·.name)) = true := by
  have hfind : find_duplicate_by_content hashFn f true dest = none := by
    rw [find_duplicate_by_content]
    rw [if_neg (by exact Bool.noConfusion)]
    by_cases hz : hashFn f.content = ""
    · rw [if_pos hz]
    · rw [if_neg hz]
      apply List.find?_eq_none.mpr
      intro g hg hp
      simp only [Bool.and_eq_true, decide_eq_true_eq] at hp
      exact hnodup g hg ⟨hp.1.1, hp.1.2, hp.2⟩
  obtain ⟨n, hn1, hgen, hfree, hmin⟩ := generate_unique_spec f.name (dest.map (·.name))
  refine ⟨n, hn1, ?_, hfree, hmin⟩
  rw [route_single_file, validate_valid f hod hif hne hrd]
  rw [if_neg (by exact Bool.noConfusion)]
  rw [hfind]
  dsimp only
  rw [if_pos (memb_iff.mpr hcoll), hgen]

/-- Claim C4 witness: a second, different-content `report.pdf` arriving beside an
existing `report.pdf` is stored under a fresh suffixed name with the least free
counter. -/
theorem c4_witness :
    ∃ n, 1 ≤ n ∧
      route_single_file (fun c => String.mk (c.map Nat.digitChar))
        ⟨"report.pdf", [1, 2], true, true, true⟩ [⟨"report.pdf", [9], true⟩] =
        ⟨[⟨"report.pdf", [9], true⟩] ++
          [⟨mkIndexedName (pyStem "report.pdf") (pySuffix "report.pdf") n, [1, 2], true⟩],
          true, true, 1, 0, [], [],
          some (mkIndexedName (pyStem "report.pdf") (pySuffix "report.pdf") n), true⟩ ∧
      memb (mkIndexedName (pyStem "report.pdf") (pySuffix "report.pdf") n)
        (([⟨"report.pdf", [9], true⟩] : List DestFile).map (·.name)) = false ∧
      ∀ m, 1 ≤ m → m < n →
        memb (mkIndexedName (pyStem "report.pdf") (pySuffix "report.pdf") m)
          (([⟨"report.pdf", [9], true⟩] : List DestFile).map (·.name)) = true :=
  c4_name_collision (fun c => String.mk (c.map Nat.digitChar))
    ⟨"report.pdf", [1, 2], true, true, true⟩ [⟨"report.pdf", [9], true⟩]
    rfl rfl (by decide) rfl (by decide) (by decide)

end Router

namespace Router

open BigSky

theorem mem_ite_singleton {x y : String} {c : Prop} [Decidable c]
    (h : x ∈ (if c then [y] else [])) : x = y := by
  split at h
  · simpa using h
  · simp at h

theorem pyStartsWith_dot_of_du {s : String} (h : pyStartsWith s "._" = true) :
    pyStartsWith s "." = true := by
  rw [pyStartsWith, List.isPrefixOf_iff_prefix] at h ⊢
  have hdu : ("._" : String).data = ['.', '_'] := rfl
  have hd : ("." : String).data = ['.'] := rfl
  rw [hdu] at h
  rw [hd]
  obtain ⟨r, hr⟩ := h
  exact ⟨'_' :: r, by simpa using hr⟩

theorem excluded_not_routable (e : DZFile)
    (hexcl : e.isFile = false ∨ pyStartsWith e.name "." = true ∨
      pyStartsWith e.name "._" = true ∨ e.name = ".DS_Store" ∨ e.name = "Thumbs.db") :
    routableEntry e = false := by
  rw [routableEntry]
  rcases hexcl with h | h | h | h | h
  · simp [h]
  · simp [h]
  · simp [pyStartsWith_dot_of_du h]
  · have hdot : pyStartsWith e.name "." = true := by rw [h]; decide
    simp [hdot]
  · simp [h]

theorem route_single_file_adds (hashFn : List Nat → String) (f : DZFile)
    (dest : List DestFile) :
    (∀ x ∈ (route_single_file hashFn f dest).warnAdded.map Prod.fst, x = f.name) ∧
    (route_single_file hashFn f dest).errAdded = [] := by
  rw [route_single_file]
  by_cases hv : (validate_file_for_routing f).1 = false
  · rw [if_pos hv]
    exact ⟨by intro x hx; simpa using hx, rfl⟩
  · rw [if_neg hv]
    cases hfd : find_duplicate_by_content hashFn f true dest with
    | none =>
      dsimp only
      exact ⟨by intro x hx; simp at hx, rfl⟩
    | some g =>
      exact ⟨by intro x hx; simp at hx, rfl⟩

theorem foldl_accum (hashFn : List Nat → String) (proj : RFState → List String)
    (hstep : ∀ st f x, x ∈ proj (processOne hashFn st f) → x ∈ proj st ∨ x = f.name) :
    ∀ (fs : List DZFile) (st : RFState) (x : String),
    x ∈ proj (fs.foldl (processOne hashFn) st) → x ∈ proj st ∨ ∃ f ∈ fs, f.name = x := by
  intro fs
  induction fs with
  | nil =>
    intro st x hx
    exact Or.inl hx
  | cons f rest ih =>
    intro st x hx
    rw [List.foldl_cons] at hx
    rcases ih (processOne hashFn st f) x hx with h | ⟨g, hg, hgx⟩
    · rcases hstep st f x h with h2 | h2
      · exact Or.inl h2
      · exact Or.inr ⟨f, List.mem_cons_self f rest, h2.symm⟩
    · exact Or.inr ⟨g, List.mem_cons_of_mem f hg, hgx⟩

theorem removed_step (hashFn : List Nat → String) : ∀ (st : RFState) (f : DZFile) (x : String),
    x ∈ (processOne hashFn st f).removed → x ∈ st.removed ∨ x = f.name := by
  intro st f x hx
  rw [processOne] at hx
  dsimp only at hx
  rcases List.mem_append.mp hx with h | h
  · exact Or.inl h
  · exact Or.inr (mem_ite_singleton h)

theorem warnings_step (hashFn : List Nat → String) : ∀ (st : RFState) (f : DZFile) (x : String),
    x ∈ (processOne hashFn st f).warnings.map Prod.fst →
    x ∈ st.warnings.map Prod.fst ∨ x = f.name := by
  intro st f x hx
  rw [processOne] at hx
  dsimp only at hx
  rw [List.map_append] at hx
  rcases List.mem_append.mp hx with h | h
  · exact Or.inl h
  · exact Or.inr ((route_single_file_adds hashFn f _).1 x h)

theorem failed_step (hashFn : List Nat → String) : ∀ (st : RFState) (f : DZFile) (x : String),
    x ∈ (processOne hashFn st f).failed → x ∈ st.failed ∨ x = f.name := by
  intro st f x hx
  rw [processOne] at hx
  dsimp only at hx
  rcases List.mem_append.mp hx with h | h
  · exact Or.inl h
  · right
    rcases hs : (route_single_file hashFn f (getFolder st.dests (destKeyOf f.name))).succeeded
    · rw [hs] at h
      simpa using h
    · rw [hs] at h
      simp at h

theorem hashed_step (hashFn : List Nat → String) : ∀ (st : RFState) (f : DZFile) (x : String),
    x ∈ (processOne hashFn st f).hashed → x ∈ st.hashed ∨ x = f.name := by
  intro st f x hx
  rw [processOne] at hx
  dsimp only at hx
  rcases List.mem_append.mp hx with h | h
  · exact Or.inl h
  · exact Or.inr (mem_ite_singleton h)

theorem errors_step (hashFn : List Nat → String) : ∀ (st : RFState) (f : DZFile) (x : String),
    x ∈ (processOne hashFn st f).errors → x ∈ st.errors ∨ x = f.name := by
  intro st f x hx
  rw [processOne] at hx
  dsimp only at hx
  rw [(route_single_file_adds hashFn f _).2] at hx
  rcases List.mem_append.mp hx with h | h
  · exact Or.inl h
  · simp at h

end Router

namespace Router

open BigSky

/-- Claim C10: an entry of the drop zone that is not a regular file, or whose name
starts with `.` or `._`, or equals `.DS_Store` or `Thumbs.db`, is excluded before
per-file processing: it stays in the drop zone, is never hashed, and generates no
warning, no error and no failure entry. -/
theorem c10_excluded_entries (hashFn : List Nat → String) (entries : List DZFile)
    (dests0 : DestMap) (e : DZFile) (he : e ∈ entries)
    (hexcl : e.isFile = false ∨ pyStartsWith e.name "." = true ∨
      pyStartsWith e.name "._" = true ∨ e.name = ".DS_Store" ∨ e.name = "Thumbs.db")
    (hnd : (entries.map (·.name)).Nodup) :
    e ∈ (route_files hashFn entries dests0).dz ∧
    e.name ∉ (route_files hashFn entries dests0).warnings.map Prod.fst ∧
    e.name ∉ (route_files hashFn entries dests0).errors ∧
    e.name ∉ (route_files hashFn entries dests0).failed ∧
    e.name ∉ (route_files hashFn entries dests0).hashed := by
  have hre : routableEntry e = false := excluded_not_routable e hexcl
  have hnotin : ∀ (proj : RFState → List String),
      (∀ st f x, x ∈ proj (processOne hashFn st f) → x ∈ proj st ∨ x = f.name) →
      proj ⟨dests0, [], 0, 0, [], [], [], []⟩ = [] →
      e.name ∉ proj ((entries.filter routableEntry).foldl (processOne hashFn)
        ⟨dests0, [], 0, 0, [], [], [], []⟩) := by
    intro proj hstep hinit hin
    rcases foldl_accum hashFn proj hstep _ _ _ hin with h | ⟨f, hf, hfx⟩
    · rw [hinit] at h
      simp at h
    · have hfm := List.mem_filter.mp hf
      have hfe : f = e := List.inj_on_of_nodup_map hnd hfm.1 he hfx
      have := hfm.2
      rw [hfe, hre] at this
      exact Bool.noConfusion this
  rw [route_files]
  by_cases hfe : ((entries.filter routableEntry).isEmpty = true)
  · rw [if_pos hfe]
    exact ⟨he, by simp, by simp, by simp, by simp⟩
  · rw [if_neg hfe]
    dsimp only
    refine ⟨?_, ?_, ?_, ?_, ?_⟩
    · refine List.mem_filter.mpr ⟨he, ?_⟩
      rw [hre]
      rfl
    · exact hnotin (fun st => st.warnings.map Prod.fst) (warnings_step hashFn) rfl
    · exact hnotin (fun st => st.errors) (errors_step hashFn) rfl
    · exact hnotin (fun st => st.failed) (failed_step hashFn) rfl
    · exact hnotin (fun st => st.hashed) (hashed_step hashFn) rfl

/-- Claim C10 witness: a `.DS_Store` entry beside a routable `doc.pdf` stays in the
drop zone untouched, unhashed, and generates no diagnostics. -/
theorem c10_witness :
    (⟨".DS_Store", [7], true, true, true⟩ : DZFile) ∈
      (route_files (fun c => String.mk (c.map Nat.digitChar))
        [⟨".DS_Store", [7], true, true, true⟩, ⟨"doc.pdf", [1], true, true, true⟩] []).dz ∧
    ".DS_Store" ∉ (route_files (fun c => String.mk (c.map Nat.digitChar))
      [⟨".DS_Store", [7], true, true, true⟩, ⟨"doc.pdf", [1], true, true, true⟩] []).warnings.map
        Prod.fst ∧
    ".DS_Store" ∉ (route_files (fun c => String.mk (c.map Nat.digitChar))
      [⟨".DS_Store", [7], true, true, true⟩, ⟨"doc.pdf", [1], true, true, true⟩] []).errors ∧
    ".DS_Store" ∉ (route_files (fun c => String.mk (c.map Nat.digitChar))
      [⟨".DS_Store", [7], true, true, true⟩, ⟨"doc.pdf", [1], true, true, true⟩] []).failed ∧
    ".DS_Store" ∉ (route_files (fun c => String.mk (c.map Nat.digitChar))
      [⟨".DS_Store", [7], true, true, true⟩, ⟨"doc.pdf", [1], true, true, true⟩] []).hashed :=
  c10_excluded_entries (fun c => String.mk (c.map Nat.digitChar))
    [⟨".DS_Store", [7], true, true, true⟩, ⟨"doc.pdf", [1], true, true, true⟩] []
    ⟨".DS_Store", [7], true, true, true⟩ (by decide)
    (Or.inr (Or.inl (by decide))) (by decide)

end Router
